import Mathlib

/-!
Verification development for the Node-Zero-Synapse code-intelligence engine.

Shallow embedding of the analytical core (parsing, complexity, call
resolution, relationship extraction, graph blast radius, governance rules,
git risk signals, expertise-score construction), translated from the Python
sources under backend/, together with theorems settling the specification
claims about these components.

Conventions of the embedding:
 * Python floats are modelled as rationals.
 * Python dictionaries are modelled as association lists in insertion order.
 * Externally injected operations (the tree-sitter grammar is modelled
   structurally; fnmatch-style glob matching, ast.parse, os.path.relpath and
   the graph store's betweenness centrality are passed as parameters).
 * Optional strings follow Python truthiness where the source tests them
   with a bare `if`: a present-but-empty string behaves like an absent one.
-/

namespace Synapse

/-! ### Executable string operations

The embedding uses its own character-list implementations of the Python
string operations appearing in the sources (`in`, `startswith`, `endswith`,
`split`, `replace`, `join`, `lower`), written with structural recursion so
that concrete witnesses evaluate inside the kernel. -/

/-- If `pat` is a literal prefix of `s`, the remainder after it. -/
def dropLitHead? : List Char → List Char → Option (List Char)
  | [], s => some s
  | _ :: _, [] => none
  | p :: ps, c :: cs => if c = p then dropLitHead? ps cs else none

/-- Split on every occurrence of a (nonempty) separator, left to right.
The fuel dominates the character count. -/
def splitOnCore (sep : List Char) : Nat → List Char → List (List Char)
  | _, [] => [[]]
  | 0, s => [s]
  | fuel + 1, c :: cs =>
      match dropLitHead? sep (c :: cs) with
      | some rest => [] :: splitOnCore sep fuel rest
      | none =>
          match splitOnCore sep fuel cs with
          | [] => [[c]]
          | h :: t => (c :: h) :: t

/-- Python `s.split(sep)` for a nonempty separator. -/
def strSplitOn (s sep : String) : List String :=
  if sep.data.isEmpty then [s]
  else (splitOnCore sep.data s.data.length s.data).map (fun l => String.mk l)

/-- Replace every (non-overlapping) occurrence of `pat`, left to right. -/
def replaceCore (pat rep : List Char) : Nat → List Char → List Char
  | _, [] => []
  | 0, s => s
  | fuel + 1, c :: cs =>
      match dropLitHead? pat (c :: cs) with
      | some rest => rep ++ replaceCore pat rep fuel rest
      | none => c :: replaceCore pat rep fuel cs

/-- Python `s.replace(pat, rep)` for a nonempty pattern. -/
def strReplace (s pat rep : String) : String :=
  if pat.data.isEmpty then s
  else String.mk (replaceCore pat.data rep.data s.data.length s.data)

/-- Python `s.startswith(pat)`. -/
def strStartsWith (s pat : String) : Bool :=
  pat.data.isPrefixOf s.data

/-- Python `s.endswith(pat)`. -/
def strEndsWith (s pat : String) : Bool :=
  pat.data.isSuffixOf s.data

/-- Python `pat in s` (substring containment). -/
def strContains (s pat : String) : Bool :=
  s.data.tails.any (fun t => pat.data.isPrefixOf t)

/-- Python `s.lower()`. -/
def strToLower (s : String) : String :=
  String.mk (s.data.map Char.toLower)

/-- Python `sep.join(l)`. -/
def strIntercalate (sep : String) (l : List String) : String :=
  String.mk (List.intercalate sep.data (l.map String.data))

/-! ### Tree-sitter syntax nodes (backend/core/parser.py, complexity.py)

A tree-sitter node exposes a node `ty`pe, its source `text`, a list of
`children`, and named fields; a field points at one of the children, which
we model with an index into the `children` list. -/

inductive TSNode : Type where
  | mk (ty : String) (text : String) (fields : List (String × Nat)) (children : List TSNode)

def TSNode.ty : TSNode → String
  | .mk t _ _ _ => t

def TSNode.text : TSNode → String
  | .mk _ s _ _ => s

def TSNode.fields : TSNode → List (String × Nat)
  | .mk _ _ f _ => f

def TSNode.children : TSNode → List TSNode
  | .mk _ _ _ c => c

/-- `node.child_by_field_name(name)` of the tree-sitter API. -/
def TSNode.child_by_field_name (n : TSNode) (name : String) : Option TSNode :=
  (n.fields.lookup name).bind (fun i => n.children.get? i)

mutual

/-- `find_calls` from backend/core/parser.py: collect the callee text of every
`call` node, recursing into all children (including nested function
definitions — the source has no skip for them). -/
def find_calls : TSNode → List String
  | .mk ty _ fields children =>
      (if ty == "call" then
        match (fields.lookup "function").bind (fun i => children.get? i) with
        | some fn => [fn.text]
        | none => []
      else []) ++ find_calls_list children

def find_calls_list : List TSNode → List String
  | [] => []
  | c :: cs => find_calls c ++ find_calls_list cs

end

/-- The call list computed for a function entity by `extract_function`
(backend/core/parser.py): `find_calls` applied to the body field. -/
def extract_function_calls (n : TSNode) : List String :=
  match n.child_by_field_name "body" with
  | some body => find_calls body
  | none => []

/-- Node types counted as decision points by
`calculate_cyclomatic_complexity` (backend/core/complexity.py). -/
def decision_types : List String :=
  ["if_statement", "elif_clause", "for_statement", "while_statement",
   "except_clause", "with_statement", "assert_statement",
   "conditional_expression", "list_comprehension", "dictionary_comprehension",
   "set_comprehension", "generator_expression"]

mutual

/-- The recursive `traverse` inside `calculate_cyclomatic_complexity`:
counts decision points in all descendants — nested function definitions are
traversed like any other node. -/
def cyclomatic_traverse : TSNode → Nat
  | .mk ty _ _ children =>
      (if ty ∈ decision_types then 1 else 0) +
      (if ty == "boolean_operator" then 1 else 0) +
      (if ty == "if_clause" then 1 else 0) +
      cyclomatic_traverse_list children

def cyclomatic_traverse_list : List TSNode → Nat
  | [] => 0
  | c :: cs => cyclomatic_traverse c + cyclomatic_traverse_list cs

end

/-- `calculate_cyclomatic_complexity` from backend/core/complexity.py. -/
def calculate_cyclomatic_complexity (n : TSNode) : Nat :=
  1 + (match n.child_by_field_name "body" with
       | some body => cyclomatic_traverse body
       | none => 0)

/-- Structures that increment cognitive complexity (each maps to +1). -/
def cognitive_increment_types : List String :=
  ["if_statement", "elif_clause", "else_clause", "for_statement",
   "while_statement", "except_clause", "with_statement",
   "conditional_expression", "lambda"]

/-- Structures that increase the nesting level for cognitive complexity. -/
def cognitive_nesting_types : List String :=
  ["if_statement", "elif_clause", "else_clause", "for_statement",
   "while_statement", "except_clause", "with_statement", "try_statement",
   "lambda"]

/-- Mutable state threaded by the cognitive-complexity traversal:
the accumulated score and the count-recursion-once flag. -/
structure CogState where
  complexity : Nat
  recursionDetected : Bool
deriving DecidableEq

mutual

/-- The `traverse` inside `calculate_cognitive_complexity`
(backend/core/complexity.py).  Within the body every
function-definition node differs from the enclosing definition node, so the
source's `if inside_nested_func or (n != node): return` skips every nested
function definition it meets; we embed that as an unconditional skip.
`fname` is the enclosing function's name, `""` when absent (Python `None`
and `""` are both falsy in the recursion check). -/
def cognitive_traverse (fname : String) : TSNode → Nat → CogState → CogState
  | .mk ty _ fields children, nesting, st =>
      if ty == "function_definition" || ty == "async_function_definition" then st
      else
        let st1 := if ty ∈ cognitive_increment_types then
            { st with complexity := st.complexity + 1 + nesting } else st
        let st2 := if ty == "boolean_operator" then
            { st1 with complexity := st1.complexity + 1 } else st1
        let st3 := if ty == "break_statement" || ty == "continue_statement" then
            { st2 with complexity := st2.complexity + 1 } else st2
        let st4 :=
          if ty == "call" && fname != "" && !st3.recursionDetected then
            match (fields.lookup "function").bind (fun i => children.get? i) with
            | some fn =>
                if fn.text == fname || strEndsWith fn.text ("." ++ fname) then
                  { complexity := st3.complexity + 1, recursionDetected := true }
                else st3
            | none => st3
          else st3
        let nesting' := if ty ∈ cognitive_nesting_types then nesting + 1 else nesting
        cognitive_traverse_list fname children nesting' st4

def cognitive_traverse_list (fname : String) : List TSNode → Nat → CogState → CogState
  | [], _, st => st
  | c :: cs, nesting, st =>
      cognitive_traverse_list fname cs nesting (cognitive_traverse fname c nesting st)

end

/-- `calculate_cognitive_complexity` from backend/core/complexity.py (the
function name is read from the node's `name` field when not supplied). -/
def calculate_cognitive_complexity (n : TSNode) : Nat :=
  let fname := ((n.child_by_field_name "name").map TSNode.text).getD ""
  match n.child_by_field_name "body" with
  | some body => (cognitive_traverse fname body 0 ⟨0, false⟩).complexity
  | none => 0

/-! ### Code graph and blast radius (backend/graph/code_graph.py)

The NetworkX-backed store is a directed graph with at most one attributed
edge per ordered node pair (a later `add_edge` on the same pair overwrites).
We model the store's state as a node list plus an edge list; `predecessors`
and `successors` deduplicate, and edge-attribute lookup takes the last
matching edge, reproducing the overwrite semantics. -/

structure Edge where
  src : String
  tgt : String
  ty : String
  weight : ℚ
deriving DecidableEq

/-- State of a `CodeGraph` (backend/graph/code_graph.py): the store contents
plus the two pieces of auxiliary data its risk computation reads —
the `complexity` entry of `entity_metadata`, and the betweenness-centrality
map the store's analysis port would return. -/
structure CodeGraph where
  nodes : List String
  edges : List Edge
  metaComplexity : List (String × ℚ)
  betweenness : List (String × ℚ)

def has_node (g : CodeGraph) (v : String) : Bool :=
  v ∈ g.nodes

def predecessors (g : CodeGraph) (v : String) : List String :=
  ((g.edges.filter (fun e => e.tgt == v)).map (fun e => e.src)).dedup

def successors (g : CodeGraph) (v : String) : List String :=
  ((g.edges.filter (fun e => e.src == v)).map (fun e => e.tgt)).dedup

/-- `store.get_edge_data(u, v)`: the attributes of the (unique) edge from
`u` to `v`; the last write wins, as in a NetworkX DiGraph. -/
def get_edge_data (g : CodeGraph) (u v : String) : Option Edge :=
  (g.edges.filter (fun e => e.src == u && e.tgt == v)).getLast?

def in_degree (g : CodeGraph) (v : String) : Nat :=
  (predecessors g v).length

def out_degree (g : CodeGraph) (v : String) : Nat :=
  (successors g v).length

/-- `CodeGraph.get_callers`: predecessors whose edge carries type CALLS. -/
def get_callers (g : CodeGraph) (v : String) : List String :=
  (predecessors g v).filter (fun p =>
    match get_edge_data g p v with
    | some e => e.ty == "CALLS"
    | none => false)

/-- There is an edge (of any type) from `a` to `b`. -/
def edgeRel (g : CodeGraph) (a b : String) : Prop :=
  ∃ e ∈ g.edges, e.src = a ∧ e.tgt = b

/-- `a` is a transitive predecessor (ancestor) of `b`: some nonempty chain
of edges leads from `a` to `b`. -/
def reaches (g : CodeGraph) (a b : String) : Prop :=
  Relation.TransGen (edgeRel g) a b

/-- `CodeGraph._collect_upstream`: depth-first collection of all upstream
dependencies with a visited set.  The Python recursion terminates because
every node it adds is the source of some edge and the visited set only
grows; we embed it with explicit fuel and run it with enough fuel to cover
all edge sources (see `blast_fuel`). -/
def collect_upstream (g : CodeGraph) : Nat → String → List String → List String
  | 0, _, collected => collected
  | fuel + 1, e, collected =>
      (predecessors g e).foldl
        (fun acc p => if p ∈ acc then acc else collect_upstream g fuel p (p :: acc))
        collected

/-- The set of edge sources: every element the traversal can ever add. -/
def upstream_sources (g : CodeGraph) : Finset String :=
  (g.edges.map (fun e => e.src)).toFinset

/-- Fuel that dominates the recursion depth of `collect_upstream`. -/
def blast_fuel (g : CodeGraph) : Nat :=
  (upstream_sources g).card + 1

/-- Risk weights from backend/graph/code_graph.py (`RISK_WEIGHTS`). -/
def RISK_WEIGHTS : String → ℚ
  | "complexity" => 25 / 100
  | "centrality" => 20 / 100
  | "test_coverage" => 20 / 100
  | "dependency_count" => 15 / 100
  | "change_frequency" => 10 / 100
  | "bus_factor" => 10 / 100
  | _ => 0

/-- `RiskFactors` dataclass with its field defaults. -/
structure RiskFactors where
  complexity_risk : ℚ := 0
  centrality_risk : ℚ := 0
  test_coverage_risk : ℚ := 1 / 2
  dependency_risk : ℚ := 0
  change_frequency_risk : ℚ := 0
  bus_factor_risk : ℚ := 1 / 2
deriving DecidableEq

/-- `RiskFactors.weighted_total`: weighted sum capped at 1. -/
def RiskFactors.weighted_total (rf : RiskFactors) : ℚ :=
  min (rf.complexity_risk * RISK_WEIGHTS "complexity" +
       rf.centrality_risk * RISK_WEIGHTS "centrality" +
       rf.test_coverage_risk * RISK_WEIGHTS "test_coverage" +
       rf.dependency_risk * RISK_WEIGHTS "dependency_count" +
       rf.change_frequency_risk * RISK_WEIGHTS "change_frequency" +
       rf.bus_factor_risk * RISK_WEIGHTS "bus_factor") 1

/-- `ImpactAssessment` (fields used by the analytical core; the
`affected_by_type` dictionary is an association list in insertion order). -/
structure ImpactAssessment where
  target : String
  direct_callers : List String
  indirect_callers : List String
  affected_tests : List String
  risk_score : ℚ
  affected_by_type : List (String × List String)
  blast_radius : Nat
  risk_factors : RiskFactors
  recommendations : List String
deriving DecidableEq

/-- `ImpactAssessment._get_risk_level`. -/
def get_risk_level (a : ImpactAssessment) : String :=
  if a.risk_score < 2 / 10 then "LOW"
  else if a.risk_score < 5 / 10 then "MEDIUM"
  else if a.risk_score < 8 / 10 then "HIGH"
  else "CRITICAL"

/-- Per-entity complexity metrics passed in `complexity_data`. -/
structure ComplexityMetrics where
  cyclomatic : ℚ := 0
  cognitive : ℚ := 0
deriving DecidableEq

/-- `CodeGraph._calculate_centrality_risk`.  The store's betweenness map is
part of the graph model; the `except` fallback guards a library failure that
the pure embedding cannot exhibit. -/
def calculate_centrality_risk (g : CodeGraph) (target : String) : ℚ :=
  if g.nodes.dedup.length < 3 then 0
  else
    let target_centrality := ((g.betweenness.lookup target).getD 0)
    let max_centrality :=
      if g.betweenness.isEmpty then 1
      else ((g.betweenness.map (fun p => p.2)).foldl max 0)
    let normalized := if 0 < max_centrality then target_centrality / max_centrality else 0
    min normalized 1

/-- `CodeGraph._calculate_enhanced_risk_factors`. -/
def calculate_enhanced_risk_factors (g : CodeGraph) (target : String)
    (direct_callers indirect_callers affected_tests : List String)
    (complexity_data : Option (List (String × ComplexityMetrics))) : RiskFactors :=
  let complexity_risk :=
    match complexity_data.bind (fun cd => cd.lookup target) with
    | some m => min ((m.cyclomatic + m.cognitive / 2) / 15) 1
    | none =>
        match g.metaComplexity.lookup target with
        | some c => min (c / 15) 1
        | none => 0
  let centrality_risk := calculate_centrality_risk g target
  let test_coverage_risk :=
    if affected_tests.isEmpty then 1
    else max 0 (1 - (affected_tests.length : ℚ) * (3 / 10))
  let total_dependents : ℚ := (direct_callers.length : ℚ) + (indirect_callers.length : ℚ)
  let dependency_risk := min (total_dependents / 10) 1
  let in_deg : ℚ := if has_node g target then (in_degree g target : ℚ) else 0
  let out_deg : ℚ := if has_node g target then (out_degree g target : ℚ) else 0
  let change_frequency_risk := min ((in_deg + out_deg) / 20) 1
  let bus_factor_risk : ℚ := 1 / 2
  { complexity_risk := complexity_risk
    centrality_risk := centrality_risk
    test_coverage_risk := test_coverage_risk
    dependency_risk := dependency_risk
    change_frequency_risk := change_frequency_risk
    bus_factor_risk := bus_factor_risk }

/-- `CodeGraph._generate_recommendations`. -/
def generate_recommendations (rf : RiskFactors) (affected_tests : List String) : List String :=
  let recs : List String := []
  let recs := if 7 / 10 ≤ rf.complexity_risk then
      recs ++ ["Consider refactoring to reduce complexity before changes"] else recs
  let recs := if 7 / 10 ≤ rf.test_coverage_risk then
      (if affected_tests.isEmpty then recs ++ ["Add unit tests before modifying this code"]
       else recs ++ ["Consider adding more test coverage"]) else recs
  let recs := if 6 / 10 ≤ rf.centrality_risk then
      recs ++ ["This is a critical path node - changes will have wide impact"] else recs
  let recs := if 6 / 10 ≤ rf.dependency_risk then
      recs ++ ["Many modules depend on this - coordinate with affected teams"] else recs
  let recs := if 7 / 10 ≤ rf.bus_factor_risk then
      recs ++ ["Consider pair programming or code review with another developer"] else recs
  if recs.isEmpty then ["Risk level acceptable for standard development workflow"] else recs

/-- `CodeGraph._categorize_affected`: bucket each affected entity by the
first relation type connecting it toward the target or another affected
entity. -/
def categorize_affected (g : CodeGraph) (target : String) (affected : List String) :
    List (String × List String) :=
  let step := fun (cats : List String × List String × List String) (entity : String) =>
    (successors g entity).foldl
      (fun (c : List String × List String × List String) succ =>
        if succ == target || succ ∈ affected then
          match get_edge_data g entity succ with
          | some e =>
              if e.ty == "CALLS" then
                (if entity ∈ c.1 then c else (c.1 ++ [entity], c.2.1, c.2.2))
              else if e.ty == "INHERITS" then
                (if entity ∈ c.2.1 then c else (c.1, c.2.1 ++ [entity], c.2.2))
              else if e.ty == "USES_TYPE" then
                (if entity ∈ c.2.2 then c else (c.1, c.2.1, c.2.2 ++ [entity]))
              else c
          | none => c
        else c)
      cats
  let cats := affected.foldl step ([], [], [])
  [("callers", cats.1), ("inheritors", cats.2.1), ("type_users", cats.2.2)]

/-- The early return of `CodeGraph.calculate_blast_radius` for a target that
is not a node: the zero assessment (`risk_factors` and `recommendations`
filled in by `__post_init__` defaults). -/
def zero_assessment (target : String) : ImpactAssessment :=
  { target := target
    direct_callers := []
    indirect_callers := []
    affected_tests := []
    risk_score := 0
    affected_by_type := []
    blast_radius := 0
    risk_factors := {}
    recommendations := [] }

/-- The main branch of `CodeGraph.calculate_blast_radius` (target present). -/
def blast_radius_assessment (g : CodeGraph) (target : String)
    (complexity_data : Option (List (String × ComplexityMetrics))) : ImpactAssessment :=
    let direct_callers := get_callers g target
    let all_affected := (collect_upstream g (blast_fuel g) target []).erase target
    let indirect_callers := all_affected.filter (fun a => a ∉ direct_callers)
    let affected_tests := all_affected.filter
      (fun a => strContains (strToLower a) "test" || strStartsWith a "test_")
    let affected_by_type := categorize_affected g target all_affected
    let risk_factors := calculate_enhanced_risk_factors g target
      direct_callers indirect_callers affected_tests complexity_data
    let risk_score := risk_factors.weighted_total
    let recommendations := generate_recommendations risk_factors affected_tests
    { target := target
      direct_callers := direct_callers
      indirect_callers := indirect_callers
      affected_tests := affected_tests
      risk_score := risk_score
      affected_by_type := affected_by_type
      blast_radius := all_affected.length
      risk_factors := risk_factors
      recommendations := recommendations }

/-- `CodeGraph.calculate_blast_radius` (backend/graph/code_graph.py). -/
def calculate_blast_radius (g : CodeGraph) (target : String)
    (complexity_data : Option (List (String × ComplexityMetrics))) : ImpactAssessment :=
  if ¬ has_node g target then zero_assessment target
  else blast_radius_assessment g target complexity_data

/-! ### Entities and call resolution (backend/core/entities.py, resolver.py) -/

/-- Python truthiness of an optional string (`if s:`). -/
def optTruthy : Option String → Bool
  | some s => s ≠ ""
  | none => false

/-- `Parameter` dataclass (fields the extractor reads). -/
structure Parameter where
  name : String
  type_hint : Option String := none
  default_value : Option String := none
  is_args : Bool := false
  is_kwargs : Bool := false
deriving DecidableEq

/-- `FunctionEntity` (fields the resolver and extractor read). -/
structure FunctionEntity where
  name : String
  file_path : String
  parent_class : Option String := none
  parameters : List Parameter := []
  return_type : Option String := none
  decorators : List String := []
  start_line : Nat := 0
  calls : List String := []
deriving DecidableEq

/-- `FunctionEntity.unique_id`: `file ":" [parent_class "."] name`
(the class part is used only when `parent_class` is truthy). -/
def FunctionEntity.unique_id (f : FunctionEntity) : String :=
  if optTruthy f.parent_class then
    f.file_path ++ ":" ++ (f.parent_class.getD "") ++ "." ++ f.name
  else
    f.file_path ++ ":" ++ f.name

/-- `ClassEntity` (fields the resolver and extractor read). -/
structure ClassEntity where
  name : String
  file_path : String
  bases : List String := []
  methods : List String := []
  decorators : List String := []
  start_line : Nat := 0
deriving DecidableEq

def ClassEntity.unique_id (c : ClassEntity) : String :=
  c.file_path ++ ":" ++ c.name

/-- A registered entity: function or class. -/
inductive Entity where
  | func (f : FunctionEntity)
  | cls (c : ClassEntity)
deriving DecidableEq

def Entity.unique_id : Entity → String
  | .func f => f.unique_id
  | .cls c => c.unique_id

def Entity.name : Entity → String
  | .func f => f.name
  | .cls c => c.name

def Entity.file_path : Entity → String
  | .func f => f.file_path
  | .cls c => c.file_path

/-- `hasattr(entity, 'parent_class') and entity.parent_class == base`
(only `FunctionEntity` has the attribute, and `None == base` is false). -/
def Entity.parentClassIs (e : Entity) (base : String) : Bool :=
  match e with
  | .func f => f.parent_class == some base
  | .cls _ => false

/-- `EntityRegistry` (backend/core/resolver.py): lookup indices modelled as
association lists keyed in insertion order. -/
structure EntityRegistry where
  entities_by_id : List (String × Entity) := []
  entities_by_name : List (String × List Entity) := []
  classes : List (String × ClassEntity) := []
  entities_by_file : List (String × List Entity) := []

def EntityRegistry.find_by_name (r : EntityRegistry) (name : String) : List Entity :=
  (r.entities_by_name.lookup name).getD []

def EntityRegistry.find_by_id (r : EntityRegistry) (uid : String) : Option Entity :=
  r.entities_by_id.lookup uid

def EntityRegistry.find_in_file (r : EntityRegistry) (file_path name : String) : Option Entity :=
  ((r.entities_by_file.lookup file_path).getD []).find? (fun e => e.name == name)

def EntityRegistry.get_class (r : EntityRegistry) (name : String) : Option ClassEntity :=
  r.classes.lookup name

/-- `ImportMapping` (backend/core/resolver.py). -/
structure ImportMapping where
  module_aliases : List (String × String) := []
  name_imports : List (String × String) := []
  star_imports : List String := []

/-- `ResolvedCall` (backend/core/resolver.py); metadata holds string pairs. -/
structure ResolvedCall where
  original_call : String
  resolved_target : Option String
  resolution_type : String
  confidence : ℚ
  metadata : List (String × String) := []
deriving DecidableEq

/-- `dict.get(key, default)` over the metadata association list. -/
def metaGetD (md : List (String × String)) (key deflt : String) : String :=
  (md.lookup key).getD deflt

/-- Well-formedness of a resolution result: confidence in [0,1]; the target
is absent exactly on `"unresolved"`, exactly when confidence is 0; any other
resolution type carries confidence at least 0.6. -/
def resolved_call_wf (r : ResolvedCall) : Prop :=
  (0 ≤ r.confidence ∧ r.confidence ≤ 1) ∧
  (r.resolved_target = none ↔ r.resolution_type = "unresolved") ∧
  (r.resolution_type = "unresolved" ↔ r.confidence = 0) ∧
  (r.resolution_type ≠ "unresolved" → 6 / 10 ≤ r.confidence)

/-- Python `s.split(sep, 1)[1]`: everything after the first occurrence of
`sep` (the argument strings used by the resolver always contain `sep`
or the result of the fallback is the whole string when absent, matching
`split` returning a one-element list in that case — the resolver only uses
this after checking the separator is present). -/
def splitAfterFirst (s sep : String) : String :=
  strIntercalate sep ((strSplitOn s sep).drop 1)

/-- Python `s.split(sep)[0]`. -/
def splitHead (s sep : String) : String :=
  ((strSplitOn s sep).head?).getD s

/-- `CallResolver._resolve_self_call`. -/
def resolve_self_call (reg : EntityRegistry) (call_str : String)
    (parent_class : Option String) (file_path : String) : ResolvedCall :=
  let method_name := splitHead (splitAfterFirst call_str ".") "("
  let attempt : Option ResolvedCall :=
    if optTruthy parent_class then
      let pc := parent_class.getD ""
      let target_id := file_path ++ ":" ++ pc ++ "." ++ method_name
      match reg.find_by_id target_id with
      | some _ =>
          some { original_call := call_str
                 resolved_target := some target_id
                 resolution_type := "method"
                 confidence := 1 }
      | none =>
          match reg.get_class pc with
          | some parent_cls =>
              if parent_cls.bases.isEmpty then none
              else
                (parent_cls.bases.findSome? (fun base =>
                  ((reg.find_by_name method_name).find?
                    (fun e => e.parentClassIs base)).map (fun entity =>
                      { original_call := call_str
                        resolved_target := some entity.unique_id
                        resolution_type := "inherited_method"
                        confidence := 9 / 10 })))
          | none => none
    else none
  attempt.getD
    { original_call := call_str
      resolved_target := none
      resolution_type := "unresolved"
      confidence := 0
      metadata := [("reason", "method not found in class hierarchy")] }

/-- `CallResolver._resolve_super_call`. -/
def resolve_super_call (reg : EntityRegistry) (call_str : String)
    (parent_class : Option String) : ResolvedCall :=
  let method_name :=
    if strContains call_str "()." then splitHead (splitAfterFirst call_str "().") "("
    else "__init__"
  let attempt : Option ResolvedCall :=
    if optTruthy parent_class then
      match reg.get_class (parent_class.getD "") with
      | some parent_cls =>
          if parent_cls.bases.isEmpty then none
          else
            let base_name := parent_cls.bases.headI
            ((reg.find_by_name method_name).find?
              (fun e => e.parentClassIs base_name)).map (fun entity =>
                { original_call := call_str
                  resolved_target := some entity.unique_id
                  resolution_type := "super"
                  confidence := 95 / 100
                  metadata := [("base_class", base_name)] })
      | none => none
    else none
  attempt.getD
    { original_call := call_str
      resolved_target := none
      resolution_type := "unresolved"
      confidence := 0
      metadata := [("reason", "super class method not found")] }

/-- `CallResolver._resolve_instantiation`. -/
def resolve_instantiation (reg : EntityRegistry) (call_str : String) : ResolvedCall :=
  match reg.get_class call_str with
  | some class_entity =>
      { original_call := call_str
        resolved_target := some class_entity.unique_id
        resolution_type := "instantiation"
        confidence := 1 }
  | none =>
      { original_call := call_str
        resolved_target := none
        resolution_type := "unresolved"
        confidence := 0 }

/-- `CallResolver._resolve_qualified_call`. -/
def resolve_qualified_call (reg : EntityRegistry) (call_str : String)
    (imports : ImportMapping) : ResolvedCall :=
  let parts := strSplitOn call_str "."
  let first_part := parts.headI
  let rest := splitHead (strIntercalate "." (parts.drop 1)) "("
  match imports.module_aliases.lookup first_part with
  | some full_module =>
      let full_call := full_module ++ "." ++ rest
      match (reg.find_by_name rest).find?
          (fun e => strContains e.file_path full_module || strContains e.unique_id full_module) with
      | some entity =>
          { original_call := call_str
            resolved_target := some entity.unique_id
            resolution_type := "import_alias"
            confidence := 9 / 10 }
      | none =>
          { original_call := call_str
            resolved_target := some full_call
            resolution_type := "external_module"
            confidence := 7 / 10
            metadata := [("module", full_module), ("function", rest)] }
  | none =>
      match (reg.find_by_name rest).head? with
      | some c =>
          { original_call := call_str
            resolved_target := some c.unique_id
            resolution_type := "object_method"
            confidence := 6 / 10
            metadata := [("object", first_part)] }
      | none =>
          { original_call := call_str
            resolved_target := none
            resolution_type := "unresolved"
            confidence := 0
            metadata := [("reason", "qualified name not found")] }

/-- `CallResolver._resolve_direct_call`. -/
def resolve_direct_call (reg : EntityRegistry) (call_str : String)
    (imports : ImportMapping) (file_path : String) : ResolvedCall :=
  let func_name := splitHead call_str "("
  match imports.name_imports.lookup func_name with
  | some full_path =>
      match (reg.find_by_name func_name).head? with
      | some entity =>
          { original_call := call_str
            resolved_target := some entity.unique_id
            resolution_type := "import"
            confidence := 9 / 10 }
      | none =>
          { original_call := call_str
            resolved_target := some full_path
            resolution_type := "external_import"
            confidence := 7 / 10
            metadata := [("imported_from", full_path)] }
  | none =>
      match reg.find_in_file file_path func_name with
      | some local_entity =>
          { original_call := call_str
            resolved_target := some local_entity.unique_id
            resolution_type := "direct"
            confidence := 1 }
      | none =>
          match (reg.find_by_name func_name).head? with
          | some c =>
              { original_call := call_str
                resolved_target := some c.unique_id
                resolution_type := "global"
                confidence := 8 / 10 }
          | none =>
              match reg.get_class func_name with
              | some _ => resolve_instantiation reg func_name
              | none =>
                  { original_call := call_str
                    resolved_target := none
                    resolution_type := "unresolved"
                    confidence := 0
                    metadata := [("reason", "function not found in scope")] }

/-- `CallResolver.resolve` (backend/core/resolver.py): dispatch on the call
shape, first match wins.  `cache` is the per-file `_import_cache`. -/
def resolve (reg : EntityRegistry) (cache : List (String × ImportMapping))
    (call_str : String) (context : FunctionEntity) : ResolvedCall :=
  let file_path := context.file_path
  let parent_class := context.parent_class
  let imports := (cache.lookup file_path).getD {}
  if strStartsWith call_str "self." then
    resolve_self_call reg call_str parent_class file_path
  else if strStartsWith call_str "super()." then
    resolve_super_call reg call_str parent_class
  else if strStartsWith call_str "super(" then
    resolve_super_call reg call_str parent_class
  else if (reg.classes.lookup call_str).isSome then
    resolve_instantiation reg call_str
  else if strContains call_str "." then
    resolve_qualified_call reg call_str imports
  else
    resolve_direct_call reg call_str imports file_path

/-! ### Relationship extraction (backend/graph/relationships.py, extractor.py) -/

/-- `RelationType` enumeration (backend/graph/relationships.py). -/
inductive RelationType where
  | CONTAINS | DEFINES | CALLS | INSTANTIATES | INHERITS | IMPLEMENTS
  | OVERRIDES | IMPORTS | IMPORTS_FROM | DECORATES | USES_TYPE | RETURNS_TYPE
  | READS_GLOBAL | WRITES_GLOBAL | RAISES | CATCHES
deriving DecidableEq

/-- `Relationship` dataclass (metadata modelled as string pairs). -/
structure Relationship where
  source : String
  target : String
  rel_type : RelationType
  weight : ℚ := 1
  line : Option Nat := none
  context : Option String := none
  metadata : List (String × String) := []
deriving DecidableEq

/-- The call-resolution loop of
`RelationshipExtractor._extract_function_relationships`
(backend/graph/extractor.py lines 125-158): one edge per entry of
`func.calls` — CALLS/INSTANTIATES with the resolver's confidence as weight
when a target was resolved, otherwise a CALLS edge to the original call
string with weight 0.5 and `resolution_type = "unresolved"`. -/
def extract_call_relationships (reg : EntityRegistry)
    (cache : List (String × ImportMapping)) (func : FunctionEntity) : List Relationship :=
  func.calls.foldl
    (fun acc call =>
      let resolved := resolve reg cache call func
      match resolved.resolved_target with
      | some tgt =>
          let rel_type := if resolved.resolution_type == "instantiation"
            then RelationType.INSTANTIATES else RelationType.CALLS
          acc ++ [{ source := func.unique_id
                    target := tgt
                    rel_type := rel_type
                    weight := resolved.confidence
                    context := some call
                    metadata := [("resolution_type", resolved.resolution_type),
                                 ("original_call", resolved.original_call)] }]
      | none =>
          acc ++ [{ source := func.unique_id
                    target := call
                    rel_type := RelationType.CALLS
                    weight := 1 / 2
                    metadata := [("resolution_type", "unresolved"),
                                 ("reason", metaGetD resolved.metadata "reason" "unknown")] }])
    []

/-- The single edge emitted for one call (the loop body above). -/
def call_relationship_for (reg : EntityRegistry)
    (cache : List (String × ImportMapping)) (func : FunctionEntity)
    (call : String) : Relationship :=
  let resolved := resolve reg cache call func
  match resolved.resolved_target with
  | some tgt =>
      { source := func.unique_id
        target := tgt
        rel_type := if resolved.resolution_type == "instantiation"
          then RelationType.INSTANTIATES else RelationType.CALLS
        weight := resolved.confidence
        context := some call
        metadata := [("resolution_type", resolved.resolution_type),
                     ("original_call", resolved.original_call)] }
  | none =>
      { source := func.unique_id
        target := call
        rel_type := RelationType.CALLS
        weight := 1 / 2
        metadata := [("resolution_type", "unresolved"),
                     ("reason", metaGetD resolved.metadata "reason" "unknown")] }

/-! ### Governance rule engine (backend/governance/models.py, rules.py)

`fn` is the injected fnmatch-style glob matcher: `fn path pattern` holds
when `pattern` matches `path`. -/

inductive RuleAction where
  | ALLOW | WARN | BLOCK
deriving DecidableEq

inductive ViolationSeverity where
  | INFO | WARNING | ERROR | CRITICAL
deriving DecidableEq

/-- `Layer` dataclass. -/
structure Layer where
  name : String
  patterns : List String
  description : String := ""
  allowed_dependencies : List String := []
deriving DecidableEq

/-- `Layer.matches`. -/
def Layer.matches (fn : String → String → Bool) (l : Layer) (module_path : String) : Bool :=
  let normalized := strReplace module_path "\\" "/"
  l.patterns.any (fun pattern => fn normalized pattern)

/-- `BoundaryRule` dataclass. -/
structure BoundaryRule where
  name : String
  from_layer : String
  to_layer : String
  action : RuleAction
  message : String := ""
deriving DecidableEq

/-- `BoundaryRule.matches`. -/
def BoundaryRule.matches (r : BoundaryRule) (source_layer target_layer : String) : Bool :=
  r.from_layer == source_layer && r.to_layer == target_layer

/-- `Violation` dataclass (without the wall-clock timestamp field). -/
structure Violation where
  file_path : String
  line_number : Nat
  from_module : String
  to_module : String
  from_layer : String
  to_layer : String
  rule : BoundaryRule
  severity : ViolationSeverity
  message : String
deriving DecidableEq

/-- `ValidationResult` dataclass. -/
structure ValidationResult where
  valid : Bool
  violation : Option Violation := none
deriving DecidableEq

/-- `ArchitectureConfig` (layers keyed in insertion order). -/
structure ArchitectureConfig where
  layers : List (String × Layer) := []
  rules : List BoundaryRule := []
  strict_mode : Bool := false

/-- `RuleEngine.classify_layer`: first matching layer in declaration order
(the memoisation cache only caches this pure result). -/
def classify_layer (fn : String → String → Bool) (config : ArchitectureConfig)
    (module_path : String) : Option String :=
  let normalized := strReplace module_path "\\" "/"
  (config.layers.find? (fun p => Layer.matches fn p.2 normalized)).map (fun p => p.1)

/-- `RuleEngine.validate_import` (backend/governance/rules.py). -/
def validate_import (fn : String → String → Bool) (config : ArchitectureConfig)
    (from_module to_module file_path : String) (line_number : Nat) : ValidationResult :=
  let from_layer := classify_layer fn config from_module
  let to_layer := classify_layer fn config to_module
  if from_layer.isNone || to_layer.isNone then
    if config.strict_mode then
      { valid := false
        violation := some
          { file_path := file_path
            line_number := line_number
            from_module := from_module
            to_module := to_module
            from_layer := from_layer.getD "unknown"
            to_layer := to_layer.getD "unknown"
            rule := { name := "Strict Mode", from_layer := "unknown",
                      to_layer := "unknown", action := RuleAction.BLOCK,
                      message := "Module not classified in strict mode" }
            severity := ViolationSeverity.WARNING
            message := "Unclassified import: " ++ from_module ++ " -> " ++ to_module } }
    else { valid := true }
  else
    let fl := from_layer.getD ""
    let tl := to_layer.getD ""
    if fl == tl then { valid := true }
    else
      match config.rules.find? (fun rule => rule.matches fl tl) with
      | some rule =>
          if rule.action = RuleAction.ALLOW then { valid := true }
          else
            let severity := if rule.action = RuleAction.WARN
              then ViolationSeverity.WARNING else ViolationSeverity.ERROR
            { valid := rule.action = RuleAction.WARN
              violation := some
                { file_path := file_path
                  line_number := line_number
                  from_module := from_module
                  to_module := to_module
                  from_layer := fl
                  to_layer := tl
                  rule := rule
                  severity := severity
                  message := if rule.message ≠ "" then rule.message
                    else "Import from " ++ fl ++ " to " ++ tl ++ " violates " ++ rule.name } }
      | none =>
          match config.layers.lookup fl with
          | some source_layer =>
              if ¬ source_layer.allowed_dependencies.isEmpty then
                if tl ∉ source_layer.allowed_dependencies then
                  { valid := false
                    violation := some
                      { file_path := file_path
                        line_number := line_number
                        from_module := from_module
                        to_module := to_module
                        from_layer := fl
                        to_layer := tl
                        rule := { name := "Allowed Dependencies", from_layer := fl,
                                  to_layer := tl, action := RuleAction.BLOCK }
                        severity := ViolationSeverity.ERROR
                        message := fl ++ " layer can only depend on its declared dependencies" } }
                else { valid := true }
              else { valid := true }
          | none => { valid := true }

/-! ### Git risk analyzer (backend/git/git_risk_analyzer.py) -/

/-- `FileRiskMetrics` (`recent_change_fraction` embeds the source's
recent-change-over-total field). -/
structure FileRiskMetrics where
  change_count : Nat := 0
  unique_authors : Nat := 0
  author_names : List String := []
  days_since_last_change : Nat := 0
  recent_change_fraction : ℚ := 0
deriving DecidableEq

/-- `os.path.basename` for forward-slash paths. -/
def pathBasename (s : String) : String :=
  ((strSplitOn s "/").getLast?).getD s

/-- `GitRiskAnalyzer._find_metrics`: direct lookup, then suffix match either
way, then basename match, over the cached per-file metrics in insertion
order. -/
def find_metrics (file_metrics : List (String × FileRiskMetrics))
    (file_path : String) : Option FileRiskMetrics :=
  let normalized := strReplace file_path "\\" "/"
  match file_metrics.lookup normalized with
  | some m => some m
  | none =>
      match file_metrics.find?
          (fun p => strEndsWith p.1 normalized || strEndsWith normalized p.1) with
      | some p => some p.2
      | none =>
          let basename := pathBasename normalized
          (file_metrics.find? (fun p => pathBasename p.1 == basename)).map (fun p => p.2)

/-- `GitRiskAnalyzer.get_bus_factor_risk`. -/
def get_bus_factor_risk (file_metrics : List (String × FileRiskMetrics))
    (file_path : String) : ℚ :=
  match find_metrics file_metrics file_path with
  | none => 1 / 2
  | some metrics =>
      let authors := metrics.unique_authors
      if authors ≤ 1 then 1
      else if authors = 2 then 7 / 10
      else if authors = 3 then 4 / 10
      else if authors = 4 then 2 / 10
      else 1 / 10

/-- `GitRiskAnalyzer.get_change_frequency_risk`. -/
def get_change_frequency_risk (file_metrics : List (String × FileRiskMetrics))
    (max_change_count : Nat) (file_path : String) : ℚ :=
  match find_metrics file_metrics file_path with
  | none => 3 / 10
  | some metrics =>
      let frequency_score :=
        min ((metrics.change_count : ℚ) / (max max_change_count 1 : Nat)) 1
      let recency_score := metrics.recent_change_fraction
      min (frequency_score * (6 / 10) + recency_score * (4 / 10)) 1

/-! ### Architecture validator (backend/governance/validator.py)

`astParse` is the injected `ast.parse`: it returns the import statements of
a source text, or `none` on a syntax error.  `relpathF` is the injected
`os.path.relpath`. -/

/-- An import statement as seen by `_extract_imports` after `ast.walk`:
a plain `import a, b` with its alias names, or a `from X import ...` with
its optional module and relative level, each carrying its line number. -/
inductive PyImportStmt where
  | imp (names : List String) (line : Nat)
  | fromImp (module : Option String) (level : Nat) (line : Nat)
deriving DecidableEq

/-- One extracted import: module text and line. -/
structure ImportInfo where
  module : String
  line : Nat
deriving DecidableEq

/-- `ArchitectureValidator._resolve_relative_import`: strip `level` path
components off the importing file and append the module path. -/
def resolve_relative_import (file_path module : String) (level : Nat) : String :=
  let parts := strSplitOn file_path "/"
  if 0 < level ∧ level < parts.length then
    let base_parts := parts.take (parts.length - level)
    if module ≠ "" then
      strIntercalate "/" base_parts ++ "/" ++ (strReplace module "." "/")
    else strIntercalate "/" base_parts
  else module

/-- `ArchitectureValidator._extract_imports`: empty on syntax error,
otherwise the walked import statements (a `from` without a module — a bare
relative import — is skipped, matching `if node.module:`). -/
def extract_imports (parsed : Option (List PyImportStmt)) (file_path : String) :
    List ImportInfo :=
  match parsed with
  | none => []
  | some stmts =>
      stmts.foldl
        (fun acc stmt =>
          match stmt with
          | .imp names line => acc ++ names.map (fun n => { module := n, line := line })
          | .fromImp module level line =>
              if optTruthy module then
                let m := module.getD ""
                let m := if 0 < level then resolve_relative_import file_path m level else m
                acc ++ [{ module := m, line := line }]
              else acc)
        []

/-- `FileValidationResult`. -/
structure FileValidationResult where
  file_path : String
  violations : List Violation := []
  warnings : List Violation := []
  imports_checked : Nat := 0
deriving DecidableEq

def FileValidationResult.has_errors (r : FileValidationResult) : Bool :=
  0 < r.violations.length

def FileValidationResult.has_warnings (r : FileValidationResult) : Bool :=
  0 < r.warnings.length

/-- `RepositoryValidationResult` (totals plus the per-file results kept for
files with findings). -/
structure RepositoryValidationResult where
  root_path : String
  file_results : List FileValidationResult := []
  total_files : Nat := 0
  total_imports : Nat := 0

/-- `ArchitectureValidator.validate_file`: non-Python paths and unreadable
files yield an empty result; otherwise every extracted import is checked
against the rule engine. -/
def validate_file (fn : String → String → Bool)
    (astParse : String → Option (List PyImportStmt))
    (relpathF : String → String → String) (config : ArchitectureConfig)
    (file_path : String) (readResult : Option String) (repo_root : String) :
    FileValidationResult :=
  let base : FileValidationResult := { file_path := file_path }
  if ¬ strEndsWith file_path ".py" then base
  else
    match readResult with
    | none => base
    | some content =>
        let imports := extract_imports (astParse content) file_path
        let relative_path := if repo_root ≠ "" then relpathF file_path repo_root else file_path
        imports.foldl
          (fun res ii =>
            let res := { res with imports_checked := res.imports_checked + 1 }
            let validation := validate_import fn config relative_path ii.module
              file_path ii.line
            match validation.violation with
            | some v =>
                if v.severity = ViolationSeverity.WARNING then
                  { res with warnings := res.warnings ++ [v] }
                else
                  { res with violations := res.violations ++ [v] }
            | none => res)
          base

/-- One file surfaced by the repository walk: its path and its read outcome
(`none` when unreadable). -/
structure RepoFile where
  path : String
  readResult : Option String

/-- Whether the walk keeps a file: Python extension and no exclusion
pattern matches its normalised relative path. -/
def repo_file_kept (fn : String → String → Bool) (relpathF : String → String → String)
    (repo_path : String) (exclude_patterns : List String) (f : RepoFile) : Bool :=
  strEndsWith f.path ".py" &&
    !(exclude_patterns.any (fun pattern =>
      fn (strReplace (relpathF f.path repo_path) "\\" "/") pattern))

/-- `ArchitectureValidator.validate_repository` over the files surfaced by
the directory walk (the walk itself — `os.walk` with hidden-directory
pruning — is the external filesystem port). -/
def validate_repository (fn : String → String → Bool)
    (astParse : String → Option (List PyImportStmt))
    (relpathF : String → String → String) (config : ArchitectureConfig)
    (repo_path : String) (files : List RepoFile) (exclude_patterns : List String) :
    RepositoryValidationResult :=
  files.foldl
    (fun res f =>
      if ¬ strEndsWith f.path ".py" then res
      else
        let relative := strReplace (relpathF f.path repo_path) "\\" "/"
        if exclude_patterns.any (fun pattern => fn relative pattern) then res
        else
          let res := { res with total_files := res.total_files + 1 }
          let fr := validate_file fn astParse relpathF config f.path f.readResult repo_path
          let res := { res with total_imports := res.total_imports + fr.imports_checked }
          if fr.has_errors || fr.has_warnings then
            { res with file_results := res.file_results ++ [fr] }
          else res)
    { root_path := repo_path }

/-! ### Expertise score calculator construction
(backend/core/blame/scoring/factors.py, calculator.py) -/

/-- A scoring factor as the calculator reads it: its name and weight
(the per-commit score function is irrelevant to weight validation). -/
structure ScoringFactor where
  name : String
  weight : ℚ
deriving DecidableEq

/-- `get_default_factors`: the seven factors with their default weights. -/
def get_default_factors : List ScoringFactor :=
  [{ name := "commit_frequency", weight := 15 / 100 },
   { name := "lines_changed", weight := 10 / 100 },
   { name := "refactor_depth", weight := 25 / 100 },
   { name := "architectural_changes", weight := 20 / 100 },
   { name := "bug_fixes", weight := 15 / 100 },
   { name := "recency", weight := 10 / 100 },
   { name := "code_review_participation", weight := 5 / 100 }]

/-- `validate_weights` (backend/core/blame/scoring/factors.py):
the weights must sum to 1 within 10⁻³. -/
def validate_weights (factors : List ScoringFactor) : Bool :=
  |((factors.map (fun f => f.weight)).sum) - 1| < 1 / 1000

/-- The calculator state after `__init__`. -/
structure ExpertiseScoreCalculator where
  factors : List ScoringFactor
deriving DecidableEq

/-- Outcome of constructing the calculator.  The source's
`ExpertiseScoreCalculator.__init__` never raises; the `configError`
constructor exists so the claimed failure mode is expressible. -/
inductive CalculatorInit where
  | ok (c : ExpertiseScoreCalculator) (warnings : List String)
  | configError (msg : String)
deriving DecidableEq

def CalculatorInit.isOk : CalculatorInit → Bool
  | .ok _ _ => true
  | .configError _ => false

/-- The `warnings.warn` message issued on invalid weights. -/
def weight_warning (total : ℚ) : String :=
  "Factor weights sum to " ++ toString total ++ ", expected 1.0"

/-- `ExpertiseScoreCalculator.__init__`
(backend/core/blame/scoring/calculator.py): `factors or get_default_factors()`
(so `None` or an empty list falls back to the defaults), then `warnings.warn`
— not an exception — when `validate_weights` fails. -/
def calculator_init (factors : Option (List ScoringFactor)) : CalculatorInit :=
  let fs := match factors with
    | some l => if l.isEmpty then get_default_factors else l
    | none => get_default_factors
  if validate_weights fs then .ok { factors := fs } []
  else .ok { factors := fs } [weight_warning ((fs.map (fun f => f.weight)).sum)]

/-! ### Concrete inputs used by counterexamples and witnesses -/

/-- A function-definition node named `name` whose body block holds exactly
`inner`. -/
def nest_in_function (name : String) (inner : TSNode) : TSNode :=
  TSNode.mk "function_definition" "" [("name", 0), ("body", 1)]
    [TSNode.mk "identifier" name [] [],
     TSNode.mk "block" "" [] [inner]]

/-- A function `outer` whose body consists solely of a nested function
`inner` with body `inner_stmt`. -/
def outer_with_nested (inner_stmt : TSNode) : TSNode :=
  TSNode.mk "function_definition" "" [("name", 0), ("body", 1)]
    [TSNode.mk "identifier" "outer" [] [],
     TSNode.mk "block" "" [] [nest_in_function "inner" inner_stmt]]

/-- `helper(x)` as a call node. -/
def example_call_node : TSNode :=
  TSNode.mk "call" "helper(x)" [("function", 0)] [TSNode.mk "identifier" "helper" [] []]

/-- `if x: helper(x)` — one decision point wrapping one call. -/
def example_if_node : TSNode :=
  TSNode.mk "if_statement" "if x: helper(x)" [] [example_call_node]

/-- `def outer(): def inner(): if x: helper(x)` — the enclosing function's
only call expression and only decision point both sit inside the nested
function definition. -/
def example_outer_def : TSNode :=
  outer_with_nested example_if_node

/-- A weight list summing to 0.5 (invalid). -/
def bad_factors : List ScoringFactor :=
  [{ name := "commit_frequency", weight := 1 / 2 }]

/-- A three-node graph with a cycle through the target `t`. -/
def example_graph : CodeGraph :=
  { nodes := ["a", "b", "t"]
    edges := [{ src := "a", tgt := "b", ty := "CALLS", weight := 1 },
              { src := "b", tgt := "t", ty := "CALLS", weight := 1 },
              { src := "t", tgt := "a", ty := "CALLS", weight := 1 }]
    metaComplexity := []
    betweenness := [] }

/-- Governance config with one layer and strict mode on. -/
def example_config : ArchitectureConfig :=
  { layers := [("api", { name := "api", patterns := ["api"],
                         allowed_dependencies := [] })]
    rules := []
    strict_mode := true }

/-- Literal glob matcher used in witnesses. -/
def eq_matcher : String → String → Bool :=
  fun s pattern => s == pattern

/-- Per-file git metrics with two distinct authors. -/
def example_metrics : List (String × FileRiskMetrics) :=
  [("a.py", { change_count := 3, unique_authors := 2 })]

/-- A function making one call that resolves to nothing. -/
def example_func : FunctionEntity :=
  { name := "f", file_path := "m.py", calls := ["foo"] }

/-! ## Theorems -/

/-- The example weight list fails validation: its sum 0.5 misses 1.0 by more
than the 10⁻³ tolerance. -/
lemma bad_factors_invalid : validate_weights bad_factors = false := by
  unfold validate_weights bad_factors
  simp only [List.map, List.sum_cons, List.sum_nil]
  rw [decide_eq_false_iff_not]
  have h : (1 / 2 + 0 - 1 : ℚ) = -(1 / 2) := by norm_num
  rw [h, abs_neg, abs_of_nonneg (by norm_num : (0 : ℚ) ≤ 1 / 2)]
  norm_num

/-- `ExpertiseScoreCalculator.__init__` always constructs a calculator. -/
lemma calculator_init_isOk (o : Option (List ScoringFactor)) :
    (calculator_init o).isOk = true := by
  unfold calculator_init
  cases o <;> dsimp only [] <;> split_ifs <;> rfl

/-- C2 counterexample: with factor weights summing to 0.5 — which fail
`validate_weights` — constructing the expertise score calculator does not
fail with a `ConfigurationError`; construction succeeds. -/
theorem c2_counterexample :
    validate_weights bad_factors = false ∧
    (calculator_init (some bad_factors)).isOk = true :=
  ⟨bad_factors_invalid, calculator_init_isOk (some bad_factors)⟩

/-- C2 (amended): if the supplied factor weights do not sum to 1.0 within
10⁻³, constructing the expertise score calculator still succeeds; the
violation is reported as a warning naming the actual sum, and the calculator
keeps the invalid factors (the pipeline proceeds). -/
theorem c2_amended_invalid_weights_warn_only (factors : List ScoringFactor)
    (hne : factors ≠ []) (hbad : validate_weights factors = false) :
    calculator_init (some factors) =
      CalculatorInit.ok { factors := factors }
        [weight_warning ((factors.map (fun f => f.weight)).sum)] := by
  have hfe : factors.isEmpty = false := by
    cases factors
    · exact absurd rfl hne
    · rfl
  unfold calculator_init
  simp only [hfe, Bool.false_eq_true, if_false, hbad]

/-- Witness for C2's amended theorem at the concrete invalid weight list. -/
theorem c2_amended_witness :
    (bad_factors ≠ [] ∧ validate_weights bad_factors = false) ∧
    calculator_init (some bad_factors) =
      CalculatorInit.ok { factors := bad_factors }
        [weight_warning ((bad_factors.map (fun f => f.weight)).sum)] :=
  ⟨⟨by decide, bad_factors_invalid⟩,
   c2_amended_invalid_weights_warn_only bad_factors (by decide) bad_factors_invalid⟩

/-- C6: for a target that is not a node, `calculate_blast_radius` returns
the zero assessment — empty caller/test/type lists, risk score 0 and blast
radius 0 — rather than an error. -/
theorem c6_unknown_target_zero_assessment (g : CodeGraph) (t : String)
    (cd : Option (List (String × ComplexityMetrics))) (h : has_node g t = false) :
    calculate_blast_radius g t cd =
      { target := t
        direct_callers := []
        indirect_callers := []
        affected_tests := []
        risk_score := 0
        affected_by_type := []
        blast_radius := 0
        risk_factors := {}
        recommendations := [] } := by
  unfold calculate_blast_radius
  rw [if_pos]
  · rfl
  · simp [h]

/-- Witness for C6 at a concrete graph and absent target. -/
theorem c6_witness :
    has_node example_graph "zzz" = false ∧
    calculate_blast_radius example_graph "zzz" none =
      { target := "zzz"
        direct_callers := []
        indirect_callers := []
        affected_tests := []
        risk_score := 0
        affected_by_type := []
        blast_radius := 0
        risk_factors := {}
        recommendations := [] } :=
  ⟨by decide, c6_unknown_target_zero_assessment example_graph "zzz" none (by decide)⟩

/-- C7: whenever the importing and imported modules are both classified into
the same layer, `validate_import` returns a valid result with no violation,
for every rule set and strict-mode setting. -/
theorem c7_same_layer_import_always_valid (fn : String → String → Bool)
    (config : ArchitectureConfig) (from_module to_module file_path : String)
    (line_number : Nat) (L : String)
    (h1 : classify_layer fn config from_module = some L)
    (h2 : classify_layer fn config to_module = some L) :
    validate_import fn config from_module to_module file_path line_number =
      { valid := true, violation := none } := by
  unfold validate_import
  rw [h1, h2]
  simp

/-- Witness for C7: both endpoints classify into the layer `api` and
the import validates, even in strict mode with no matching rule. -/
theorem c7_witness :
    (classify_layer eq_matcher example_config "api" = some "api" ∧
     classify_layer eq_matcher example_config "api" = some "api") ∧
    validate_import eq_matcher example_config "api" "api" "api/x.py" 3 =
      { valid := true, violation := none } :=
  ⟨⟨by decide, by decide⟩,
   c7_same_layer_import_always_valid eq_matcher example_config "api" "api" "api/x.py" 3
     "api" (by decide) (by decide)⟩

/-- C8: bus-factor risk is piecewise in the number of distinct author
emails — 1 author → 1.0, 2 → 0.7, 3 → 0.4, 4 → 0.2, 5 or more → 0.1 — and a
file with no metrics gets the neutral default 0.5. -/
theorem c8_bus_factor_piecewise (fm : List (String × FileRiskMetrics)) (fp : String) :
    (find_metrics fm fp = none → get_bus_factor_risk fm fp = 1 / 2) ∧
    (∀ m, find_metrics fm fp = some m → 1 ≤ m.unique_authors →
      get_bus_factor_risk fm fp =
        if m.unique_authors = 1 then 1
        else if m.unique_authors = 2 then 7 / 10
        else if m.unique_authors = 3 then 4 / 10
        else if m.unique_authors = 4 then 2 / 10
        else 1 / 10) := by
  constructor
  · intro h
    unfold get_bus_factor_risk
    rw [h]
  · intro m h h1
    unfold get_bus_factor_risk
    rw [h]
    have hle : m.unique_authors ≤ 1 ↔ m.unique_authors = 1 := by omega
    simp only [hle]

/-- Witness for C8 at concrete metrics with two authors. -/
theorem c8_witness :
    (find_metrics example_metrics "a.py" = some { change_count := 3, unique_authors := 2 } ∧
     1 ≤ (2 : Nat)) ∧
    get_bus_factor_risk example_metrics "a.py" = 7 / 10 := by
  refine ⟨⟨by decide, by decide⟩, ?_⟩
  have h := (c8_bus_factor_piecewise example_metrics "a.py").2
    { change_count := 3, unique_authors := 2 } (by decide) (by decide)
  simpa using h

/-- When the target is a node, `calculate_blast_radius` takes the main
branch. -/
lemma calculate_blast_radius_of_node (g : CodeGraph) (t : String)
    (cd : Option (List (String × ComplexityMetrics))) (h : has_node g t = true) :
    calculate_blast_radius g t cd = blast_radius_assessment g t cd := by
  unfold calculate_blast_radius
  simp [h]

/-- The assessment's risk score is the weighted total of its own factors. -/
lemma blast_radius_assessment_score (g : CodeGraph) (t : String)
    (cd : Option (List (String × ComplexityMetrics))) :
    (blast_radius_assessment g t cd).risk_score =
      (blast_radius_assessment g t cd).risk_factors.weighted_total := rfl

/-- The weighted total spelt out with the literal weights. -/
lemma weighted_total_formula (rf : RiskFactors) :
    rf.weighted_total =
      min (rf.complexity_risk * (25 / 100) + rf.centrality_risk * (20 / 100) +
           rf.test_coverage_risk * (20 / 100) + rf.dependency_risk * (15 / 100) +
           rf.change_frequency_risk * (10 / 100) + rf.bus_factor_risk * (10 / 100)) 1 := rfl

/-- The risk-level thresholds, as interval characterisations. -/
lemma get_risk_level_spec (a : ImpactAssessment) :
    (get_risk_level a = "LOW" ↔ a.risk_score < 2 / 10) ∧
    (get_risk_level a = "MEDIUM" ↔ 2 / 10 ≤ a.risk_score ∧ a.risk_score < 5 / 10) ∧
    (get_risk_level a = "HIGH" ↔ 5 / 10 ≤ a.risk_score ∧ a.risk_score < 8 / 10) ∧
    (get_risk_level a = "CRITICAL" ↔ 8 / 10 ≤ a.risk_score) := by
  unfold get_risk_level
  split_ifs with h1 h2 h3
  · refine ⟨⟨fun _ => h1, fun _ => rfl⟩, ?_, ?_, ?_⟩ <;> constructor <;> intro h
    · exact absurd h (by decide)
    · exact ((by linarith [h.1] : False)).elim
    · exact absurd h (by decide)
    · exact ((by linarith [h.1] : False)).elim
    · exact absurd h (by decide)
    · exact ((by linarith [h] : False)).elim
  · refine ⟨?_, ⟨fun _ => ⟨le_of_not_lt h1, h2⟩, fun _ => rfl⟩, ?_, ?_⟩ <;>
      constructor <;> intro h
    · exact absurd h (by decide)
    · exact ((by linarith : False)).elim
    · exact absurd h (by decide)
    · exact ((by linarith [h.1] : False)).elim
    · exact absurd h (by decide)
    · exact ((by linarith [h] : False)).elim
  · refine ⟨?_, ?_, ⟨fun _ => ⟨le_of_not_lt h2, h3⟩, fun _ => rfl⟩, ?_⟩ <;>
      constructor <;> intro h
    · exact absurd h (by decide)
    · exact ((by linarith : False)).elim
    · exact absurd h (by decide)
    · exact ((by linarith [h.2] : False)).elim
    · exact absurd h (by decide)
    · exact ((by linarith [h] : False)).elim
  · refine ⟨?_, ?_, ?_, ⟨fun _ => le_of_not_lt h3, fun _ => rfl⟩⟩ <;>
      constructor <;> intro h
    · exact absurd h (by decide)
    · exact ((by linarith : False)).elim
    · exact absurd h (by decide)
    · exact ((by linarith [h.2] : False)).elim
    · exact absurd h (by decide)
    · exact ((by linarith [h.2] : False)).elim

/-- C5: for an assessed target in the graph, the overall risk score equals
the weighted sum of the six risk factors with the fixed weights
{complexity 0.25, centrality 0.20, test_coverage 0.20, dependency 0.15,
change_frequency 0.10, bus_factor 0.10}, capped at 1.0; and the derived
risk level is LOW below 0.2, MEDIUM below 0.5, HIGH below 0.8, and
CRITICAL otherwise. -/
theorem c5_risk_score_weights_and_level (g : CodeGraph) (t : String)
    (cd : Option (List (String × ComplexityMetrics))) (h : has_node g t = true) :
    ((calculate_blast_radius g t cd).risk_score =
      min ((calculate_blast_radius g t cd).risk_factors.complexity_risk * (25 / 100) +
           (calculate_blast_radius g t cd).risk_factors.centrality_risk * (20 / 100) +
           (calculate_blast_radius g t cd).risk_factors.test_coverage_risk * (20 / 100) +
           (calculate_blast_radius g t cd).risk_factors.dependency_risk * (15 / 100) +
           (calculate_blast_radius g t cd).risk_factors.change_frequency_risk * (10 / 100) +
           (calculate_blast_radius g t cd).risk_factors.bus_factor_risk * (10 / 100)) 1) ∧
    ((get_risk_level (calculate_blast_radius g t cd) = "LOW" ↔
        (calculate_blast_radius g t cd).risk_score < 2 / 10) ∧
     (get_risk_level (calculate_blast_radius g t cd) = "MEDIUM" ↔
        2 / 10 ≤ (calculate_blast_radius g t cd).risk_score ∧
        (calculate_blast_radius g t cd).risk_score < 5 / 10) ∧
     (get_risk_level (calculate_blast_radius g t cd) = "HIGH" ↔
        5 / 10 ≤ (calculate_blast_radius g t cd).risk_score ∧
        (calculate_blast_radius g t cd).risk_score < 8 / 10) ∧
     (get_risk_level (calculate_blast_radius g t cd) = "CRITICAL" ↔
        8 / 10 ≤ (calculate_blast_radius g t cd).risk_score)) := by
  rw [calculate_blast_radius_of_node g t cd h]
  exact ⟨by rw [blast_radius_assessment_score, weighted_total_formula],
         get_risk_level_spec (blast_radius_assessment g t cd)⟩

/-- Witness for C5 at a concrete graph and present target. -/
theorem c5_witness :
    has_node example_graph "t" = true ∧
    ((calculate_blast_radius example_graph "t" none).risk_score =
      min ((calculate_blast_radius example_graph "t" none).risk_factors.complexity_risk * (25 / 100) +
           (calculate_blast_radius example_graph "t" none).risk_factors.centrality_risk * (20 / 100) +
           (calculate_blast_radius example_graph "t" none).risk_factors.test_coverage_risk * (20 / 100) +
           (calculate_blast_radius example_graph "t" none).risk_factors.dependency_risk * (15 / 100) +
           (calculate_blast_radius example_graph "t" none).risk_factors.change_frequency_risk * (10 / 100) +
           (calculate_blast_radius example_graph "t" none).risk_factors.bus_factor_risk * (10 / 100)) 1) ∧
    (get_risk_level (calculate_blast_radius example_graph "t" none) = "LOW" ↔
      (calculate_blast_radius example_graph "t" none).risk_score < 2 / 10) :=
  ⟨by decide,
   (c5_risk_score_weights_and_level example_graph "t" none (by decide)).1,
   ((c5_risk_score_weights_and_level example_graph "t" none (by decide)).2).1⟩

/-- A resolved result (present target, named type, confidence in
[0.6, 1]) is well-formed. -/
lemma wf_resolved {oc tgt ty : String} {conf : ℚ} {md : List (String × String)}
    (hty : ty ≠ "unresolved") (h1 : 6 / 10 ≤ conf) (h2 : conf ≤ 1) :
    resolved_call_wf ⟨oc, some tgt, ty, conf, md⟩ := by
  refine ⟨⟨by linarith, h2⟩, ?_, ?_, fun _ => h1⟩
  · simp [resolved_call_wf, hty]
  · constructor
    · intro hh
      exact absurd hh hty
    · intro hc
      have hc' : conf = 0 := hc
      rw [hc'] at h1
      exact absurd h1 (by norm_num)

/-- The unresolved result shape is well-formed. -/
lemma wf_unresolved {oc : String} {md : List (String × String)} :
    resolved_call_wf ⟨oc, none, "unresolved", 0, md⟩ := by
  exact ⟨⟨le_refl 0, by norm_num⟩, by simp, by simp, fun h => absurd rfl h⟩

/-- Anything a `findSome?` over mapped selections returns is in the range of
the mapping function. -/
lemma findSome?_map_mem {α β γ : Type} (xs : List α) (sel : α → Option β)
    (F : β → γ) (r : γ)
    (h : xs.findSome? (fun b => (sel b).map F) = some r) : ∃ e, r = F e := by
  induction xs with
  | nil => simp [List.findSome?] at h
  | cons x xs ih =>
      rw [List.findSome?_cons] at h
      cases hx : sel x with
      | some e =>
          rw [hx] at h
          simp at h
          exact ⟨e, h.symm⟩
      | none =>
          rw [hx] at h
          simp at h
          exact ih h

/-- Shifting well-formedness through `Option.getD`. -/
lemma wf_getD {o : Option ResolvedCall} {d : ResolvedCall}
    (h1 : ∀ r, o = some r → resolved_call_wf r) (h2 : resolved_call_wf d) :
    resolved_call_wf (o.getD d) := by
  cases o with
  | none => exact h2
  | some r => exact h1 r rfl

/-- `_resolve_self_call` only produces well-formed results. -/
lemma resolve_self_call_wf (reg : EntityRegistry) (call : String)
    (pc : Option String) (fp : String) :
    resolved_call_wf (resolve_self_call reg call pc fp) := by
  unfold resolve_self_call
  dsimp only
  refine wf_getD (fun r hr => ?_) wf_unresolved
  split_ifs at hr <;> (try split at hr) <;> (try split_ifs at hr) <;>
    (try split at hr) <;> (try split_ifs at hr) <;>
    first
      | (injection hr with hr
         subst hr
         exact wf_resolved (by decide) (by norm_num) (by norm_num))
      | (rw [Option.map_eq_some'] at hr
         obtain ⟨e, -, he⟩ := hr
         subst he
         exact wf_resolved (by decide) (by norm_num) (by norm_num))
      | (obtain ⟨e, he⟩ := findSome?_map_mem _ _ _ _ hr
         subst he
         exact wf_resolved (by decide) (by norm_num) (by norm_num))
      | cases hr

/-- `_resolve_super_call` only produces well-formed results. -/
lemma resolve_super_call_wf (reg : EntityRegistry) (call : String)
    (pc : Option String) :
    resolved_call_wf (resolve_super_call reg call pc) := by
  unfold resolve_super_call
  dsimp only
  refine wf_getD (fun r hr => ?_) wf_unresolved
  split_ifs at hr <;> (try split at hr) <;> (try split_ifs at hr) <;>
    (try split at hr) <;> (try split_ifs at hr) <;>
    first
      | (injection hr with hr
         subst hr
         exact wf_resolved (by decide) (by norm_num) (by norm_num))
      | (rw [Option.map_eq_some'] at hr
         obtain ⟨e, -, he⟩ := hr
         subst he
         exact wf_resolved (by decide) (by norm_num) (by norm_num))
      | (obtain ⟨e, he⟩ := findSome?_map_mem _ _ _ _ hr
         subst he
         exact wf_resolved (by decide) (by norm_num) (by norm_num))
      | cases hr

/-- `_resolve_instantiation` only produces well-formed results. -/
lemma resolve_instantiation_wf (reg : EntityRegistry) (call : String) :
    resolved_call_wf (resolve_instantiation reg call) := by
  unfold resolve_instantiation
  cases reg.get_class call with
  | some c => exact wf_resolved (by decide) (by norm_num) (by norm_num)
  | none => exact wf_unresolved

/-- `_resolve_qualified_call` only produces well-formed results. -/
lemma resolve_qualified_call_wf (reg : EntityRegistry) (call : String)
    (imports : ImportMapping) :
    resolved_call_wf (resolve_qualified_call reg call imports) := by
  unfold resolve_qualified_call
  dsimp only
  split
  · split
    · exact wf_resolved (by decide) (by norm_num) (by norm_num)
    · exact wf_resolved (by decide) (by norm_num) (by norm_num)
  · split
    · exact wf_resolved (by decide) (by norm_num) (by norm_num)
    · exact wf_unresolved

/-- `_resolve_direct_call` only produces well-formed results. -/
lemma resolve_direct_call_wf (reg : EntityRegistry) (call : String)
    (imports : ImportMapping) (fp : String) :
    resolved_call_wf (resolve_direct_call reg call imports fp) := by
  unfold resolve_direct_call
  dsimp only
  split
  · split
    · exact wf_resolved (by decide) (by norm_num) (by norm_num)
    · exact wf_resolved (by decide) (by norm_num) (by norm_num)
  · split
    · exact wf_resolved (by decide) (by norm_num) (by norm_num)
    · split
      · exact wf_resolved (by decide) (by norm_num) (by norm_num)
      · split
        · exact resolve_instantiation_wf reg _
        · exact wf_unresolved

/-- Every result of `CallResolver.resolve` is well-formed. -/
lemma resolve_wf (reg : EntityRegistry) (cache : List (String × ImportMapping))
    (call : String) (ctx : FunctionEntity) :
    resolved_call_wf (resolve reg cache call ctx) := by
  unfold resolve
  split_ifs with h1 h2 h3 h4 h5
  · exact resolve_self_call_wf reg call ctx.parent_class ctx.file_path
  · exact resolve_super_call_wf reg call ctx.parent_class
  · exact resolve_super_call_wf reg call ctx.parent_class
  · exact resolve_instantiation_wf reg call
  · exact resolve_qualified_call_wf reg call _
  · exact resolve_direct_call_wf reg call _ ctx.file_path

/-- C9: every `ResolvedCall` returned by `CallResolver.resolve` has
confidence in [0,1]; its target is `None` exactly when its resolution type
is `"unresolved"`, exactly when its confidence is 0.0; and every result of
any other resolution type has confidence at least 0.6. -/
theorem c9_resolver_result_invariants (reg : EntityRegistry)
    (cache : List (String × ImportMapping)) (call : String)
    (ctx : FunctionEntity) :
    (0 ≤ (resolve reg cache call ctx).confidence ∧
      (resolve reg cache call ctx).confidence ≤ 1) ∧
    ((resolve reg cache call ctx).resolved_target = none ↔
      (resolve reg cache call ctx).resolution_type = "unresolved") ∧
    ((resolve reg cache call ctx).resolution_type = "unresolved" ↔
      (resolve reg cache call ctx).confidence = 0) ∧
    ((resolve reg cache call ctx).resolution_type ≠ "unresolved" →
      6 / 10 ≤ (resolve reg cache call ctx).confidence) :=
  resolve_wf reg cache call ctx

/-- Folding an append-one-element step is a map. -/
lemma foldl_append_one {α β : Type} (F : β → α) :
    ∀ (l : List β) (acc : List α),
      l.foldl (fun a b => a ++ [F b]) acc = acc ++ l.map F := by
  intro l
  induction l with
  | nil => intro acc; simp
  | cons b l ih => intro acc; simp [ih]

/-- The extractor's call loop emits exactly the per-call edge for each entry
of `func.calls`, in order. -/
lemma extract_call_relationships_eq_map (reg : EntityRegistry)
    (cache : List (String × ImportMapping)) (func : FunctionEntity) :
    extract_call_relationships reg cache func =
      func.calls.map (call_relationship_for reg cache func) := by
  have hstep : (fun (acc : List Relationship) (call : String) =>
      match (resolve reg cache call func).resolved_target with
      | some tgt =>
          acc ++ [{ source := func.unique_id
                    target := tgt
                    rel_type := if (resolve reg cache call func).resolution_type == "instantiation"
                      then RelationType.INSTANTIATES else RelationType.CALLS
                    weight := (resolve reg cache call func).confidence
                    context := some call
                    metadata := [("resolution_type", (resolve reg cache call func).resolution_type),
                                 ("original_call", (resolve reg cache call func).original_call)] }]
      | none =>
          acc ++ [{ source := func.unique_id
                    target := call
                    rel_type := RelationType.CALLS
                    weight := 1 / 2
                    metadata := [("resolution_type", "unresolved"),
                                 ("reason", metaGetD (resolve reg cache call func).metadata "reason" "unknown")] }]) =
      (fun acc call => acc ++ [call_relationship_for reg cache func call]) := by
    funext acc call
    unfold call_relationship_for
    dsimp only
    cases h : (resolve reg cache call func).resolved_target <;> simp only [h]
  unfold extract_call_relationships
  rw [hstep, foldl_append_one (call_relationship_for reg cache func) func.calls []]
  simp

/-- C4: an unresolved call is never dropped — the extractor still emits a
CALLS edge whose target is the original call string, with weight 0.5 and
metadata recording `resolution_type = "unresolved"`; and every call in
`func.calls` contributes exactly one edge. -/
theorem c4_unresolved_call_edge_emitted (reg : EntityRegistry)
    (cache : List (String × ImportMapping)) (func : FunctionEntity) :
    (extract_call_relationships reg cache func).length = func.calls.length ∧
    ∀ call ∈ func.calls,
      (resolve reg cache call func).resolution_type = "unresolved" →
        ({ source := func.unique_id
           target := call
           rel_type := RelationType.CALLS
           weight := 1 / 2
           line := none
           context := none
           metadata := [("resolution_type", "unresolved"),
                        ("reason", metaGetD (resolve reg cache call func).metadata "reason" "unknown")] } :
          Relationship) ∈ extract_call_relationships reg cache func := by
  rw [extract_call_relationships_eq_map]
  constructor
  · simp
  · intro call hc hunres
    have htgt : (resolve reg cache call func).resolved_target = none :=
      ((resolve_wf reg cache call func).2.1).mpr hunres
    have hone : call_relationship_for reg cache func call =
        { source := func.unique_id
          target := call
          rel_type := RelationType.CALLS
          weight := 1 / 2
          line := none
          context := none
          metadata := [("resolution_type", "unresolved"),
                       ("reason", metaGetD (resolve reg cache call func).metadata "reason" "unknown")] } := by
      unfold call_relationship_for
      dsimp only
      rw [htgt]
    rw [← hone]
    exact List.mem_map_of_mem _ hc

/-- Witness for C4: with an empty registry the call `"foo"` is unresolved
and its edge is still present. -/
theorem c4_witness :
    ("foo" ∈ example_func.calls ∧
     (resolve {} [] "foo" example_func).resolution_type = "unresolved") ∧
    ({ source := "m.py:f"
       target := "foo"
       rel_type := RelationType.CALLS
       weight := 1 / 2
       line := none
       context := none
       metadata := [("resolution_type", "unresolved"),
                    ("reason", "function not found in scope")] } :
      Relationship) ∈ extract_call_relationships {} [] example_func := by
  refine ⟨⟨by decide, by rfl⟩, ?_⟩
  have h := (c4_unresolved_call_edge_emitted {} [] example_func).2 "foo"
    (by decide) (by rfl)
  simpa using h

/-- C1 counterexample: in `example_outer_def` the only call expression
(`helper(x)`) and the only decision point (the `if`) both occur inside the
nested function definition, so the claim demands `calls = []` and
`cyclomatic = 1`.  The code instead collects the nested call and counts the
nested decision point: `find_calls` and the cyclomatic traversal descend
into nested function definitions. -/
theorem c1_counterexample :
    extract_function_calls example_outer_def = ["helper"] ∧
    calculate_cyclomatic_complexity example_outer_def = 2 := by
  constructor <;> rfl

/-- Unfolding `find_calls_list` on nil. -/
lemma find_calls_list_nil : find_calls_list [] = [] := by
  simp only [find_calls_list]

/-- Unfolding `find_calls_list` on cons. -/
lemma find_calls_list_cons (c : TSNode) (cs : List TSNode) :
    find_calls_list (c :: cs) = find_calls c ++ find_calls_list cs := by
  simp only [find_calls_list]

/-- On a non-call node, `find_calls` just recurses into the children. -/
lemma find_calls_skip (ty text : String) (fields : List (String × Nat))
    (children : List TSNode) (h : (ty == "call") = false) :
    find_calls (TSNode.mk ty text fields children) = find_calls_list children := by
  simp only [find_calls, h]
  simp

/-- Unfolding `cyclomatic_traverse_list` on nil. -/
lemma cyclomatic_traverse_list_nil : cyclomatic_traverse_list [] = 0 := by
  simp only [cyclomatic_traverse_list]

/-- Unfolding `cyclomatic_traverse_list` on cons. -/
lemma cyclomatic_traverse_list_cons (c : TSNode) (cs : List TSNode) :
    cyclomatic_traverse_list (c :: cs) =
      cyclomatic_traverse c + cyclomatic_traverse_list cs := by
  simp only [cyclomatic_traverse_list]

/-- On a node that is no decision point, the cyclomatic traversal just
recurses into the children. -/
lemma cyclomatic_traverse_plain (ty text : String) (fields : List (String × Nat))
    (children : List TSNode) (h1 : ty ∉ decision_types)
    (h2 : (ty == "boolean_operator") = false) (h3 : (ty == "if_clause") = false) :
    cyclomatic_traverse (TSNode.mk ty text fields children) =
      cyclomatic_traverse_list children := by
  simp only [cyclomatic_traverse, h1, h2, h3]
  simp

/-- Unfolding `cognitive_traverse_list` on nil. -/
lemma cognitive_traverse_list_nil (fname : String) (nesting : Nat) (st : CogState) :
    cognitive_traverse_list fname [] nesting st = st := by
  simp only [cognitive_traverse_list]

/-- Unfolding `cognitive_traverse_list` on cons. -/
lemma cognitive_traverse_list_cons (fname : String) (c : TSNode) (cs : List TSNode)
    (nesting : Nat) (st : CogState) :
    cognitive_traverse_list fname (c :: cs) nesting st =
      cognitive_traverse_list fname cs nesting (cognitive_traverse fname c nesting st) := by
  simp only [cognitive_traverse_list]

/-- The cognitive traversal skips function-definition nodes outright. -/
lemma cognitive_traverse_skip (fname text : String) (fields : List (String × Nat))
    (children : List TSNode) (nesting : Nat) (st : CogState) :
    cognitive_traverse fname (TSNode.mk "function_definition" text fields children)
      nesting st = st := by
  simp only [cognitive_traverse]
  rw [if_pos (by decide)]

/-- On a structurally inert node, the cognitive traversal changes nothing
and just recurses into the children. -/
lemma cognitive_traverse_plain (fname ty text : String) (fields : List (String × Nat))
    (children : List TSNode) (nesting : Nat) (st : CogState)
    (hskip : (ty == "function_definition" || ty == "async_function_definition") = false)
    (h1 : ty ∉ cognitive_increment_types)
    (h2 : (ty == "boolean_operator") = false)
    (h3 : (ty == "break_statement" || ty == "continue_statement") = false)
    (h4 : (ty == "call") = false)
    (h5 : ty ∉ cognitive_nesting_types) :
    cognitive_traverse fname (TSNode.mk ty text fields children) nesting st =
      cognitive_traverse_list fname children nesting st := by
  simp only [cognitive_traverse, hskip, h1, h2, h3, h4, h5, Bool.false_and]
  simp

/-- C1 (amended): nested function definitions DO contribute to the enclosing
function's `calls[]` (every call inside the nested body is collected) and to
its cyclomatic complexity (every nested decision point is counted); only
cognitive complexity skips nested function bodies, contributing nothing to
the enclosing function. -/
theorem c1_amended_nested_functions_contribute (inner_stmt : TSNode) :
    extract_function_calls (outer_with_nested inner_stmt) = find_calls inner_stmt ∧
    calculate_cyclomatic_complexity (outer_with_nested inner_stmt) =
      1 + cyclomatic_traverse inner_stmt ∧
    calculate_cognitive_complexity (outer_with_nested inner_stmt) = 0 := by
  refine ⟨?_, ?_, ?_⟩
  · show find_calls (TSNode.mk "block" "" [] [nest_in_function "inner" inner_stmt]) = _
    unfold nest_in_function
    rw [find_calls_skip _ _ _ _ (by decide), find_calls_list_cons, find_calls_list_nil,
        find_calls_skip _ _ _ _ (by decide), find_calls_list_cons, find_calls_list_cons,
        find_calls_list_nil, find_calls_skip _ _ _ _ (by decide), find_calls_list_nil,
        find_calls_skip _ _ _ _ (by decide), find_calls_list_cons, find_calls_list_nil]
    simp
  · show 1 + cyclomatic_traverse (TSNode.mk "block" "" []
      [nest_in_function "inner" inner_stmt]) = _
    unfold nest_in_function
    rw [cyclomatic_traverse_plain _ _ _ _ (by decide) (by decide) (by decide),
        cyclomatic_traverse_list_cons, cyclomatic_traverse_list_nil,
        cyclomatic_traverse_plain _ _ _ _ (by decide) (by decide) (by decide),
        cyclomatic_traverse_list_cons, cyclomatic_traverse_list_cons,
        cyclomatic_traverse_list_nil,
        cyclomatic_traverse_plain _ _ _ _ (by decide) (by decide) (by decide),
        cyclomatic_traverse_list_nil,
        cyclomatic_traverse_plain _ _ _ _ (by decide) (by decide) (by decide),
        cyclomatic_traverse_list_cons, cyclomatic_traverse_list_nil]
    omega
  · show (cognitive_traverse "outer"
      (TSNode.mk "block" "" [] [nest_in_function "inner" inner_stmt]) 0 ⟨0, false⟩).complexity = 0
    unfold nest_in_function
    rw [cognitive_traverse_plain _ _ _ _ _ _ _ (by decide) (by decide) (by decide)
          (by decide) (by decide) (by decide),
        cognitive_traverse_list_cons, cognitive_traverse_skip,
        cognitive_traverse_list_nil]

/-- One walk step of `validate_repository` adds 1 to `total_files` exactly
when the file is kept by the filter. -/
lemma validate_repository_step_total (fn : String → String → Bool)
    (astParse : String → Option (List PyImportStmt))
    (relpathF : String → String → String) (config : ArchitectureConfig)
    (repo_path : String) (exclude_patterns : List String)
    (res : RepositoryValidationResult) (f : RepoFile) :
    ((fun (res : RepositoryValidationResult) (f : RepoFile) =>
      if ¬ strEndsWith f.path ".py" then res
      else
        let relative := strReplace (relpathF f.path repo_path) "\\" "/"
        if exclude_patterns.any (fun pattern => fn relative pattern) then res
        else
          let res := { res with total_files := res.total_files + 1 }
          let fr := validate_file fn astParse relpathF config f.path f.readResult repo_path
          let res := { res with total_imports := res.total_imports + fr.imports_checked }
          if fr.has_errors || fr.has_warnings then
            { res with file_results := res.file_results ++ [fr] }
          else res) res f).total_files =
      res.total_files +
        (if repo_file_kept fn relpathF repo_path exclude_patterns f then 1 else 0) := by
  unfold repo_file_kept
  dsimp only
  by_cases h1 : strEndsWith f.path ".py"
  · rw [if_neg (not_not_intro h1)]
    by_cases h2 : exclude_patterns.any
      (fun pattern => fn (strReplace (relpathF f.path repo_path) "\\" "/") pattern)
    · rw [if_pos h2, if_neg (by simp [h2])]
      omega
    · rw [if_neg h2]
      have hkept : (strEndsWith f.path ".py" &&
          !(exclude_patterns.any (fun pattern =>
            fn (strReplace (relpathF f.path repo_path) "\\" "/") pattern))) = true := by
        simp [h1, h2]
      rw [if_pos hkept]
      split_ifs <;> rfl
  · have h1f : strEndsWith f.path ".py" = false := by
      revert h1
      cases strEndsWith f.path ".py" <;> simp
    rw [if_pos h1, if_neg (by simp [h1f])]
    omega

/-- Folding the walk step counts the kept files. -/
lemma validate_repository_total_files (fn : String → String → Bool)
    (astParse : String → Option (List PyImportStmt))
    (relpathF : String → String → String) (config : ArchitectureConfig)
    (repo_path : String) (exclude_patterns : List String) :
    ∀ (files : List RepoFile) (res : RepositoryValidationResult),
      (files.foldl
        (fun (res : RepositoryValidationResult) (f : RepoFile) =>
          if ¬ strEndsWith f.path ".py" then res
          else
            let relative := strReplace (relpathF f.path repo_path) "\\" "/"
            if exclude_patterns.any (fun pattern => fn relative pattern) then res
            else
              let res := { res with total_files := res.total_files + 1 }
              let fr := validate_file fn astParse relpathF config f.path f.readResult repo_path
              let res := { res with total_imports := res.total_imports + fr.imports_checked }
              if fr.has_errors || fr.has_warnings then
                { res with file_results := res.file_results ++ [fr] }
              else res) res).total_files =
      res.total_files +
        (files.filter (repo_file_kept fn relpathF repo_path exclude_patterns)).length := by
  intro files
  induction files with
  | nil => intro res; simp
  | cons f fs ih =>
      intro res
      rw [List.foldl_cons, ih]
      have hstep := validate_repository_step_total fn astParse relpathF config
        repo_path exclude_patterns res f
      rw [hstep]
      by_cases hk : repo_file_kept fn relpathF repo_path exclude_patterns f <;>
        simp [hk, List.filter_cons] <;> omega

/-- C10: a Python file that cannot be read, or whose content fails to parse,
yields a `FileValidationResult` with `imports_checked = 0` and no violations
or warnings (so it can never contribute a governance violation), while the
repository walk still counts every kept `.py` file — readable or not — in
`total_files`. -/
theorem c10_unparseable_file_counted_without_violations
    (fn : String → String → Bool) (astParse : String → Option (List PyImportStmt))
    (relpathF : String → String → String) (config : ArchitectureConfig)
    (repo_path : String) (files : List RepoFile) (exclude_patterns : List String)
    (file_path : String) (readResult : Option String) (repo_root : String)
    (hfail : readResult = none ∨
      ∃ content, readResult = some content ∧ astParse content = none) :
    validate_file fn astParse relpathF config file_path readResult repo_root =
      { file_path := file_path, violations := [], warnings := [], imports_checked := 0 } ∧
    (validate_repository fn astParse relpathF config repo_path files exclude_patterns).total_files =
      (files.filter (repo_file_kept fn relpathF repo_path exclude_patterns)).length := by
  constructor
  · unfold validate_file
    by_cases hpy : strEndsWith file_path ".py"
    · rcases hfail with h | ⟨content, hc, hp⟩
      · subst h
        simp [hpy]
      · subst hc
        simp [hpy, hp, extract_imports]
    · simp [hpy]
  · have h := validate_repository_total_files fn astParse relpathF config repo_path
      exclude_patterns files { root_path := repo_path }
    simpa [validate_repository] using h

/-- Witness for C10 at a concrete unreadable file. -/
theorem c10_witness :
    ((none : Option String) = none ∨
      ∃ content, (none : Option String) = some content ∧
        (fun _ : String => (none : Option (List PyImportStmt))) content = none) ∧
    validate_file eq_matcher (fun _ => none) (fun p _ => p) {} "bad.py" none "" =
      { file_path := "bad.py", violations := [], warnings := [], imports_checked := 0 } ∧
    (validate_repository eq_matcher (fun _ => none) (fun p _ => p) {} ""
      [{ path := "bad.py", readResult := none }] []).total_files = 1 := by
  have h := c10_unparseable_file_counted_without_violations eq_matcher (fun _ => none)
    (fun p _ => p) {} "" [{ path := "bad.py", readResult := none }] [] "bad.py" none ""
    (Or.inl rfl)
  refine ⟨Or.inl rfl, h.1, ?_⟩
  rw [h.2]
  rfl

/-- A fold preserves any invariant its step preserves. -/
lemma foldl_preserve {α β : Type} (f : α → β → α) (P : α → Prop) :
    ∀ (l : List β), (∀ a b, b ∈ l → P a → P (f a b)) → ∀ acc, P acc → P (l.foldl f acc) := by
  intro l
  induction l with
  | nil => intro _ acc h; simpa using h
  | cons b bs ih =>
      intro hstep acc hacc
      rw [List.foldl_cons]
      exact ih (fun a b' hb' => hstep a b' (List.mem_cons_of_mem _ hb')) _
        (hstep acc b (List.mem_cons_self _ _) hacc)

/-- Membership in the predecessor list is having an edge into the node. -/
lemma mem_predecessors (g : CodeGraph) (v p : String) :
    p ∈ predecessors g v ↔ edgeRel g p v := by
  unfold predecessors edgeRel
  simp only [List.mem_dedup, List.mem_map, List.mem_filter, beq_iff_eq]
  constructor
  · rintro ⟨e, ⟨he, htgt⟩, hsrc⟩
    exact ⟨e, he, hsrc, htgt⟩
  · rintro ⟨e, he, hsrc, htgt⟩
    exact ⟨e, ⟨he, htgt⟩, hsrc⟩

/-- Every predecessor is an edge source. -/
lemma predecessors_sub_sources (g : CodeGraph) (v p : String)
    (h : p ∈ predecessors g v) : p ∈ upstream_sources g := by
  obtain ⟨e, he, hsrc, -⟩ := (mem_predecessors g v p).mp h
  unfold upstream_sources
  rw [List.mem_toFinset, List.mem_map]
  exact ⟨e, he, hsrc⟩

/-- The visited set only grows. -/
lemma collect_upstream_subset (g : CodeGraph) :
    ∀ fuel e C, C ⊆ collect_upstream g fuel e C := by
  intro fuel
  induction fuel with
  | zero => intro e C; exact fun x h => h
  | succ f ih =>
      intro e C
      simp only [collect_upstream]
      refine foldl_preserve _ (fun acc => C ⊆ acc) _ (fun a p _ ha => ?_) C (fun x h => h)
      by_cases hp : p ∈ a
      · rw [if_pos hp]
        exact ha
      · rw [if_neg hp]
        exact fun x hx => ih p (p :: a) (List.mem_cons_of_mem _ (ha hx))

/-- The traversal never duplicates an entry. -/
lemma collect_upstream_nodup (g : CodeGraph) :
    ∀ fuel e C, C.Nodup → (collect_upstream g fuel e C).Nodup := by
  intro fuel
  induction fuel with
  | zero => intro e C h; exact h
  | succ f ih =>
      intro e C hC
      simp only [collect_upstream]
      refine foldl_preserve _ (fun acc => acc.Nodup) _ (fun a p _ ha => ?_) C hC
      by_cases hp : p ∈ a
      · rw [if_pos hp]
        exact ha
      · rw [if_neg hp]
        exact ih p (p :: a) (List.nodup_cons.mpr ⟨hp, ha⟩)

/-- Soundness: everything collected from an ancestor-or-target seed is an
ancestor of the target. -/
lemma collect_upstream_sound (g : CodeGraph) (t : String) :
    ∀ fuel e C, (e = t ∨ reaches g e t) → (∀ x ∈ C, reaches g x t) →
      ∀ x ∈ collect_upstream g fuel e C, reaches g x t := by
  intro fuel
  induction fuel with
  | zero => intro e C _ hC; exact hC
  | succ f ih =>
      intro e C he hC
      simp only [collect_upstream]
      refine foldl_preserve _ (fun acc => ∀ x ∈ acc, reaches g x t) _ ?_ C hC
      intro a p hp ha
      by_cases hmem : p ∈ a
      · rw [if_pos hmem]
        exact ha
      · rw [if_neg hmem]
        have hpe : edgeRel g p e := (mem_predecessors g e p).mp hp
        have hpt : reaches g p t := by
          rcases he with rfl | he
          · exact Relation.TransGen.single hpe
          · exact Relation.TransGen.head hpe he
        refine ih p (p :: a) (Or.inr hpt) ?_
        intro x hx
        rcases List.mem_cons.mp hx with rfl | hx
        · exact hpt
        · exact ha x hx

/-- Growing the visited set cannot increase the number of unvisited edge
sources. -/
lemma unvisited_card_le (g : CodeGraph) {C D : List String} (h : C ⊆ D) :
    ((upstream_sources g).filter (fun s => s ∉ D)).card ≤
      ((upstream_sources g).filter (fun s => s ∉ C)).card := by
  apply Finset.card_le_card
  intro x hx
  rw [Finset.mem_filter] at hx ⊢
  exact ⟨hx.1, fun hc => hx.2 (h hc)⟩

/-- Visiting a fresh edge source strictly shrinks the unvisited count. -/
lemma unvisited_card_cons_lt (g : CodeGraph) {C : List String} {p : String}
    (hp : p ∈ upstream_sources g) (hnp : p ∉ C) :
    ((upstream_sources g).filter (fun s => s ∉ (p :: C))).card <
      ((upstream_sources g).filter (fun s => s ∉ C)).card := by
  apply Finset.card_lt_card
  constructor
  · intro x hx
    rw [Finset.mem_filter] at hx ⊢
    refine ⟨hx.1, fun hc => hx.2 (List.mem_cons_of_mem _ hc)⟩
  · intro hss
    have hpin : p ∈ (upstream_sources g).filter (fun s => s ∉ C) := by
      rw [Finset.mem_filter]
      exact ⟨hp, hnp⟩
    have := hss hpin
    rw [Finset.mem_filter] at this
    exact this.2 (List.mem_cons_self _ _)

/-- Completeness package: with fuel exceeding the number of unvisited edge
sources, the traversal of `e` collects every predecessor of `e`, and the
result is closed under predecessors away from the initial visited set. -/
lemma collect_upstream_complete (g : CodeGraph) :
    ∀ fuel (C : List String) (e : String),
      ((upstream_sources g).filter (fun s => s ∉ C)).card < fuel →
      (∀ p, edgeRel g p e → p ∈ collect_upstream g fuel e C) ∧
      (∀ x ∈ collect_upstream g fuel e C,
        x ∈ C ∨ ∀ q, edgeRel g q x → q ∈ collect_upstream g fuel e C) := by
  intro fuel
  induction fuel with
  | zero => intro C e h; exact absurd h (Nat.not_lt_zero _)
  | succ f ih =>
      intro C e hm
      simp only [collect_upstream]
      have aux : ∀ (ps : List String), (∀ p ∈ ps, p ∈ upstream_sources g) →
          ∀ acc, C ⊆ acc →
            (∀ x ∈ acc, x ∈ C ∨ ∀ q, edgeRel g q x → q ∈ acc) →
            (C ⊆ ps.foldl (fun acc p =>
                if p ∈ acc then acc else collect_upstream g f p (p :: acc)) acc ∧
             (∀ x ∈ ps.foldl (fun acc p =>
                if p ∈ acc then acc else collect_upstream g f p (p :: acc)) acc,
               x ∈ C ∨ ∀ q, edgeRel g q x →
                 q ∈ ps.foldl (fun acc p =>
                   if p ∈ acc then acc else collect_upstream g f p (p :: acc)) acc)) ∧
            acc ⊆ ps.foldl (fun acc p =>
              if p ∈ acc then acc else collect_upstream g f p (p :: acc)) acc ∧
            ∀ p ∈ ps, p ∈ ps.foldl (fun acc p =>
              if p ∈ acc then acc else collect_upstream g f p (p :: acc)) acc := by
        intro ps
        induction ps with
        | nil =>
            intro _ acc hCacc hclosed
            exact ⟨⟨hCacc, hclosed⟩, fun x h => h, by simp⟩
        | cons p ps ihps =>
            intro hsrc acc hCacc hclosed
            rw [List.foldl_cons]
            by_cases hmem : p ∈ acc
            · rw [if_pos hmem]
              obtain ⟨hI, hsub, hps⟩ := ihps (fun q hq => hsrc q (List.mem_cons_of_mem _ hq))
                acc hCacc hclosed
              refine ⟨hI, hsub, ?_⟩
              intro q hq
              rcases List.mem_cons.mp hq with rfl | hq
              · exact hsub hmem
              · exact hps q hq
            · rw [if_neg hmem]
              have hz : ((upstream_sources g).filter (fun s => s ∉ (p :: acc))).card < f := by
                have h1 := unvisited_card_cons_lt g (hsrc p (List.mem_cons_self _ _)) hmem
                have h2 := unvisited_card_le g hCacc
                omega
              obtain ⟨hpreds, hclosed'⟩ := ih (p :: acc) p hz
              have hsub' : (p :: acc) ⊆ collect_upstream g f p (p :: acc) :=
                collect_upstream_subset g f p (p :: acc)
              have hCacc' : C ⊆ collect_upstream g f p (p :: acc) :=
                fun x hx => hsub' (List.mem_cons_of_mem _ (hCacc hx))
              have hclosed'' : ∀ x ∈ collect_upstream g f p (p :: acc),
                  x ∈ C ∨ ∀ q, edgeRel g q x → q ∈ collect_upstream g f p (p :: acc) := by
                intro x hx
                rcases hclosed' x hx with hxin | hcl
                · rcases List.mem_cons.mp hxin with rfl | hxacc
                  · exact Or.inr hpreds
                  · rcases hclosed x hxacc with hxC | hclold
                    · exact Or.inl hxC
                    · exact Or.inr (fun q hq =>
                        hsub' (List.mem_cons_of_mem _ (hclold q hq)))
                · exact Or.inr hcl
              obtain ⟨hI, hsub, hps⟩ := ihps (fun q hq => hsrc q (List.mem_cons_of_mem _ hq))
                (collect_upstream g f p (p :: acc)) hCacc' hclosed''
              refine ⟨hI, fun x hx => hsub (hsub' (List.mem_cons_of_mem _ hx)), ?_⟩
              intro q hq
              rcases List.mem_cons.mp hq with rfl | hq
              · exact hsub (hsub' (List.mem_cons_self _ _))
              · exact hps q hq
      obtain ⟨⟨hCR, hclosedR⟩, haccR, hpsR⟩ := aux (predecessors g e)
        (fun p hp => predecessors_sub_sources g e p hp) C (fun x h => h)
        (fun x hx => Or.inl hx)
      refine ⟨?_, hclosedR⟩
      intro p hp
      exact hpsR p ((mem_predecessors g e p).mpr hp)

/-- With the chosen fuel, the traversal started at the target over the empty
visited set computes exactly the ancestors of the target, without
duplicates. -/
lemma collect_upstream_spec (g : CodeGraph) (t : String) :
    (collect_upstream g (blast_fuel g) t []).Nodup ∧
    ∀ u, u ∈ collect_upstream g (blast_fuel g) t [] ↔ reaches g u t := by
  have hfilter : (upstream_sources g).filter (fun s => s ∉ ([] : List String)) =
      upstream_sources g := by
    apply Finset.filter_true_of_mem
    intro x _
    exact List.not_mem_nil x
  have hm : ((upstream_sources g).filter (fun s => s ∉ ([] : List String))).card <
      blast_fuel g := by
    rw [hfilter]
    exact Nat.lt_succ_self _
  obtain ⟨hpreds, hclosed⟩ := collect_upstream_complete g (blast_fuel g) [] t hm
  refine ⟨collect_upstream_nodup g (blast_fuel g) t [] List.nodup_nil, ?_⟩
  intro u
  constructor
  · intro hu
    exact collect_upstream_sound g t (blast_fuel g) t [] (Or.inl rfl)
      (fun x hx => absurd hx (List.not_mem_nil x)) u hu
  · intro hu
    have hswap : Relation.TransGen (Function.swap (edgeRel g)) t u :=
      Relation.transGen_swap.mpr hu
    clear hu
    induction hswap with
    | single h => exact hpreds _ h
    | tail htb hbc ihb =>
        rcases hclosed _ ihb with hmem | hcl
        · exact absurd hmem (List.not_mem_nil _)
        · exact hcl _ hbc

/-- C3: for every target that is a node, the reported `blast_radius` is the
size of a duplicate-free list containing exactly the transitive
predecessors (ancestors, across all edge types) of the target with the
target itself excluded — well-defined even on cyclic graphs. -/
theorem c3_blast_radius_counts_ancestors (g : CodeGraph) (t : String)
    (cd : Option (List (String × ComplexityMetrics))) (h : has_node g t = true) :
    ∃ l : List String,
      (calculate_blast_radius g t cd).blast_radius = l.length ∧ l.Nodup ∧
      ∀ u, u ∈ l ↔ (reaches g u t ∧ u ≠ t) := by
  obtain ⟨hnd, hmem⟩ := collect_upstream_spec g t
  refine ⟨(collect_upstream g (blast_fuel g) t []).erase t, ?_, hnd.erase t, ?_⟩
  · rw [calculate_blast_radius_of_node g t cd h]
    rfl
  · intro u
    rw [List.Nodup.mem_erase_iff hnd, hmem u]
    tauto

/-- Witness for C3 at a concrete cyclic graph with present target. -/
theorem c3_witness :
    has_node example_graph "t" = true ∧
    ∃ l : List String,
      (calculate_blast_radius example_graph "t" none).blast_radius = l.length ∧ l.Nodup ∧
      ∀ u, u ∈ l ↔ (reaches example_graph u "t" ∧ u ≠ "t") :=
  ⟨by decide, c3_blast_radius_counts_ancestors example_graph "t" none (by decide)⟩

end Synapse
